import Mathlib

/-!
# Rate limiter: admission control over per-minute and per-day usage windows

A shallow embedding of the server side of the repository:

* `src/server/models/UsageWindow.js`  (`incrementAndGet`, `getCurrentUsage`,
  `getMinuteWindowId`, `getDayWindowId`)
* `src/server/models/ApiKey.js`       (`findActiveKey`)
* `src/server/models/AccessLog.js`    (the audit record)
* `src/server/middleware/rateLimiter.js` (`rateLimiter`)

MongoDB collections are lists of documents in insertion order; `findOne` and
`findOneAndUpdate` act on the first document that matches the filter.

A JavaScript `Date` is its time value in milliseconds, and the calendar
getters and setters follow ECMA-262 (section "Date Objects") in two layers.
The day-number arithmetic (`Day`, `MakeDay`, `getMinutes`, `setMinutes`, ...)
works on local time values.  The conversion between an instant and its local
time value (`LocalTime`, `UTC`) depends on the time zone of the server, and
the methods with the conversion carry the suffix `In` (`getMinutesIn`,
`setMinutesIn`, ..., `minuteExpiryIn`, `rateLimiterIn`).  In a zone without
transitions the conversion is a shift by a constant, and `rateLimiter` is the
middleware of such a server, with every `Date` given as its local time value
(`rateLimiterIn_constant`).  In a zone with daylight-saving transitions the
two layers differ, and the expiries of the usage windows are where it shows.
-/

namespace RateLimiter

/-! ## Dates -/

/-- A time value in milliseconds.  The calendar functions of this section
read it as a local time value; an instant becomes one through `LocalTime`. -/
abbrev Date := Int

def msPerDay : Int := 86400000
def msPerHour : Int := 3600000
def msPerMinute : Int := 60000
def msPerSecond : Int := 1000

/-- ECMA-262 `Day(t)`. -/
def Day (t : Date) : Int := t / msPerDay

/-- ECMA-262 `TimeWithinDay(t)`. -/
def TimeWithinDay (t : Date) : Int := t % msPerDay

/-- ECMA-262 `DayFromYear(y)`: the day number of 1 January of year `y`. -/
def DayFromYear (y : Int) : Int :=
  365 * (y - 1970) + (y - 1969) / 4 - (y - 1901) / 100 + (y - 1601) / 400

/-- ECMA-262 `DaysInYear(y)`. -/
def DaysInYear (y : Int) : Int :=
  if y % 4 ≠ 0 then 365
  else if y % 100 ≠ 0 then 366
  else if y % 400 ≠ 0 then 365
  else 366

/-- The year containing day number `d`: the largest `y` with
`DayFromYear y ≤ d`, found from an estimate that is off by at most one. -/
def YearFromDay (d : Int) : Int :=
  let y := 1970 + (400 * d) / 146097
  if DayFromYear (y + 1) ≤ d then y + 1
  else if DayFromYear y ≤ d then y
  else y - 1

/-- ECMA-262 `YearFromTime(t)`. -/
def YearFromTime (t : Date) : Int := YearFromDay (Day t)

/-- ECMA-262 `InLeapYear(t)`: 1 in a leap year, 0 otherwise. -/
def InLeapYear (t : Date) : Int :=
  if DaysInYear (YearFromTime t) = 366 then 1 else 0

/-- ECMA-262 `DayWithinYear(t)`. -/
def DayWithinYear (t : Date) : Int := Day t - DayFromYear (YearFromTime t)

/-- ECMA-262 `MonthFromTime(t)`: 0 for January up to 11 for December. -/
def MonthFromTime (t : Date) : Int :=
  let d := DayWithinYear t
  let l := InLeapYear t
  if d < 31 then 0
  else if d < 59 + l then 1
  else if d < 90 + l then 2
  else if d < 120 + l then 3
  else if d < 151 + l then 4
  else if d < 181 + l then 5
  else if d < 212 + l then 6
  else if d < 243 + l then 7
  else if d < 273 + l then 8
  else if d < 304 + l then 9
  else if d < 334 + l then 10
  else 11

/-- ECMA-262 `DateFromTime(t)`: the day of the month, from 1. -/
def DateFromTime (t : Date) : Int :=
  let d := DayWithinYear t
  let l := InLeapYear t
  match MonthFromTime t with
  | 0 => d + 1
  | 1 => d - 30
  | 2 => d - 58 - l
  | 3 => d - 89 - l
  | 4 => d - 119 - l
  | 5 => d - 150 - l
  | 6 => d - 180 - l
  | 7 => d - 211 - l
  | 8 => d - 242 - l
  | 9 => d - 272 - l
  | 10 => d - 303 - l
  | _ => d - 333 - l

/-- ECMA-262 `HourFromTime(t)`. -/
def HourFromTime (t : Date) : Int := (t / msPerHour) % 24

/-- ECMA-262 `MinFromTime(t)`. -/
def MinFromTime (t : Date) : Int := (t / msPerMinute) % 60

/-- ECMA-262 `SecFromTime(t)`. -/
def SecFromTime (t : Date) : Int := (t / msPerSecond) % 60

/-- ECMA-262 `msFromTime(t)`. -/
def msFromTime (t : Date) : Int := t % msPerSecond

/-- ECMA-262 `MakeTime(hour, min, sec, ms)`. -/
def MakeTime (hour min sec ms : Int) : Int :=
  hour * msPerHour + min * msPerMinute + sec * msPerSecond + ms

/-- Days of year `y` that precede month `m` (0 to 11). -/
def daysBeforeMonth (y m : Int) : Int :=
  let l : Int := if DaysInYear y = 366 then 1 else 0
  match m with
  | 0 => 0
  | 1 => 31
  | 2 => 59 + l
  | 3 => 90 + l
  | 4 => 120 + l
  | 5 => 151 + l
  | 6 => 181 + l
  | 7 => 212 + l
  | 8 => 243 + l
  | 9 => 273 + l
  | 10 => 304 + l
  | _ => 334 + l

/-- ECMA-262 `MakeDay(year, month, date)`: the day number of the first of
month `month` of `year` (months out of range carry into the year), plus
`date - 1`. -/
def MakeDay (year month date : Int) : Int :=
  let ym := year + month / 12
  let mn := month % 12
  DayFromYear ym + daysBeforeMonth ym mn + date - 1

/-- ECMA-262 `MakeDate(day, time)`. -/
def MakeDate (day time : Int) : Int := day * msPerDay + time

def getFullYear (d : Date) : Int := YearFromTime d
def getMonth (d : Date) : Int := MonthFromTime d
def getDate (d : Date) : Int := DateFromTime d
def getHours (d : Date) : Int := HourFromTime d
def getMinutes (d : Date) : Int := MinFromTime d

/-- `Date.prototype.setMinutes(min)` on the local time value: the
`MakeDate(Day(t), MakeTime(HourFromTime(t), min, SecFromTime(t), msFromTime(t)))`
of the method, without the conversions around it (`setMinutesIn` has them). -/
def setMinutes (d : Date) (min : Int) : Date :=
  MakeDate (Day d) (MakeTime (HourFromTime d) min (SecFromTime d) (msFromTime d))

/-- `Date.prototype.setDate(date)` on the local time value: the
`MakeDate(MakeDay(YearFromTime(t), MonthFromTime(t), date), TimeWithinDay(t))`
of the method, without the conversions around it (`setDateIn` has them). -/
def setDate (d : Date) (date : Int) : Date :=
  MakeDate (MakeDay (YearFromTime d) (MonthFromTime d) date) (TimeWithinDay d)

/-- `Date.prototype.setHours(hour, min, sec, ms)` on the local time value:
the `MakeDate(Day(t), MakeTime(hour, min, sec, ms))` of the method, without
the conversions around it (`setHoursIn` has them). -/
def setHours (d : Date) (hour min sec ms : Int) : Date :=
  MakeDate (Day d) (MakeTime hour min sec ms)

/-! ## Time zones -/

/-- The time zone of the server: the offset of local time from UTC, in
milliseconds, before the first transition, and the transitions in increasing
order, each with the instant at which it happens and the offset from then on. -/
structure TimeZone where
  offset : Int
  transitions : List (Int × Int)
  deriving DecidableEq, Repr

/-- ECMA-262 `LocalTZA(t, true)`: the offset in force at the instant `t`. -/
def offsetAtUTC (offset : Int) : List (Int × Int) → Int → Int
  | [], _ => offset
  | (start, next) :: rest, t =>
    if t < start then offset else offsetAtUTC next rest t

/-- ECMA-262 `LocalTZA(t, false)`: the offset with which the local time
value `t` is read.  A local time that occurs twice (clocks set back) or not at
all (clocks set forward) is read with the offset before the transition. -/
def offsetAtLocal (offset : Int) : List (Int × Int) → Int → Int
  | [], _ => offset
  | (start, next) :: rest, t =>
    if t - offset < start then offset
    else if t - next < start then offset
    else offsetAtLocal next rest t

/-- ECMA-262 `LocalTime(t)`: the local time value of the instant `t`. -/
def LocalTime (z : TimeZone) (t : Date) : Date := t + offsetAtUTC z.offset z.transitions t

/-- ECMA-262 `UTC(t)`: the instant of the local time value `t`. -/
def UTC (z : TimeZone) (t : Date) : Date := t - offsetAtLocal z.offset z.transitions t

/-- `Date.prototype.getMinutes()` of the instant `d` on a server in zone `z`. -/
def getMinutesIn (z : TimeZone) (d : Date) : Int := getMinutes (LocalTime z d)

/-- `Date.prototype.getDate()` of the instant `d` on a server in zone `z`. -/
def getDateIn (z : TimeZone) (d : Date) : Int := getDate (LocalTime z d)

/-- `Date.prototype.setMinutes(min)` on a server in zone `z`: the new instant. -/
def setMinutesIn (z : TimeZone) (d : Date) (min : Int) : Date :=
  UTC z (setMinutes (LocalTime z d) min)

/-- `Date.prototype.setDate(date)` on a server in zone `z`: the new instant. -/
def setDateIn (z : TimeZone) (d : Date) (date : Int) : Date :=
  UTC z (setDate (LocalTime z d) date)

/-- `Date.prototype.setHours(hour, min, sec, ms)` on a server in zone `z`:
the new instant. -/
def setHoursIn (z : TimeZone) (d : Date) (hour min sec ms : Int) : Date :=
  UTC z (setHours (LocalTime z d) hour min sec ms)

/-! ## Strings -/

/-- `String(n)` for an integer number. -/
def numberToString (n : Int) : String := toString n

/-- `String.prototype.padStart(targetLength, padString)` with a one-character
pad string. -/
def padStart (s : String) (targetLength : Nat) (padChar : Char) : String :=
  String.mk (List.replicate (targetLength - s.length) padChar) ++ s

/-- `String(n).padStart(2, '0')`. -/
def pad2 (n : Int) : String := padStart (numberToString n) 2 '0'

/-- The number a list of decimal digit characters denotes; a character that
is not a digit counts as 0. -/
def decimalValue (cs : List Char) : Nat :=
  cs.foldl (fun acc c => 10 * acc + (c.toNat - 48)) 0

/-! ## `models/UsageWindow.js` -/

/-- The `type` field of a usage window: `'minute'` or `'day'`. -/
inductive WindowType
  | minute
  | day
  deriving DecidableEq, Repr

/-- A document of the `UsageWindow` collection. -/
structure UsageWindow where
  key : String
  type : WindowType
  windowId : String
  count : Nat
  expiresAt : Date
  deriving DecidableEq, Repr

/-- Window id of the minute of `date`: `YYYYMMDD-HHmm`. -/
def getMinuteWindowId (date : Date) : String :=
  numberToString (getFullYear date) ++ pad2 (getMonth date + 1) ++ pad2 (getDate date)
    ++ "-" ++ pad2 (getHours date) ++ pad2 (getMinutes date)

/-- Window id of the day of `date`: `YYYYMMDD`. -/
def getDayWindowId (date : Date) : String :=
  numberToString (getFullYear date) ++ pad2 (getMonth date + 1) ++ pad2 (getDate date)

/-- `getMinuteWindowId(date)` for the instant `date` on a server in zone `z`. -/
def getMinuteWindowIdIn (z : TimeZone) (date : Date) : String :=
  getMinuteWindowId (LocalTime z date)

/-- `getDayWindowId(date)` for the instant `date` on a server in zone `z`. -/
def getDayWindowIdIn (z : TimeZone) (date : Date) : String :=
  getDayWindowId (LocalTime z date)

/-- The filter `{ key, type, windowId }`. -/
def matchesWindow (key : String) (type : WindowType) (windowId : String)
    (d : UsageWindow) : Bool :=
  d.key == key && d.type == type && d.windowId == windowId

/-- MongoDB `findOneAndUpdate({ key, type, windowId },
{ $inc: { count: 1 }, $setOnInsert: { expiresAt: expiry } },
{ new: true, upsert: true })`: the first matching document gets its count
incremented; when there is none, a document with count 1 and the given expiry
is inserted.  Returns the updated document and the collection. -/
def findOneAndUpdate (key : String) (type : WindowType) (windowId : String) (expiry : Date) :
    List UsageWindow → UsageWindow × List UsageWindow
  | [] =>
    let doc : UsageWindow :=
      { key := key, type := type, windowId := windowId, count := 1, expiresAt := expiry }
    (doc, [doc])
  | d :: rest =>
    if matchesWindow key type windowId d then
      let doc : UsageWindow := { d with count := d.count + 1 }
      (doc, doc :: rest)
    else
      let r := findOneAndUpdate key type windowId expiry rest
      (r.1, d :: r.2)

/-- `UsageWindow.incrementAndGet(key, type, windowId, expiry)`: the returned
count and the collection afterwards. -/
def incrementAndGet (key : String) (type : WindowType) (windowId : String) (expiry : Date)
    (coll : List UsageWindow) : Nat × List UsageWindow :=
  let result := findOneAndUpdate key type windowId expiry coll
  (result.1.count, result.2)

/-- MongoDB `findOne({ key, type, windowId })` on the usage windows. -/
def findOneWindow (key : String) (type : WindowType) (windowId : String)
    (coll : List UsageWindow) : Option UsageWindow :=
  coll.find? (matchesWindow key type windowId)

/-- The two counts `UsageWindow.getCurrentUsage(key)` reports. -/
structure Usage where
  minute : Nat
  day : Nat
  deriving DecidableEq, Repr

/-- `UsageWindow.getCurrentUsage(key)` at clock reading `now`. -/
def getCurrentUsage (now : Date) (key : String) (coll : List UsageWindow) : Usage :=
  let minuteWindow := getMinuteWindowId now
  let dayWindow := getDayWindowId now
  let minuteUsage := findOneWindow key .minute minuteWindow coll
  let dayUsage := findOneWindow key .day dayWindow coll
  { minute := (minuteUsage.map (·.count)).getD 0
    day := (dayUsage.map (·.count)).getD 0 }

/-- The count stored for a composite key, 0 when there is no document: the
expression `usage?.count || 0` of `getCurrentUsage`. -/
def countOf (key : String) (type : WindowType) (windowId : String)
    (coll : List UsageWindow) : Nat :=
  ((findOneWindow key type windowId coll).map (·.count)).getD 0

/-- The arguments of one call of `UsageWindow.incrementAndGet`. -/
structure IncrementCall where
  key : String
  type : WindowType
  windowId : String
  expiry : Date
  deriving DecidableEq, Repr

/-- Whether the call addresses the composite key `(key, type, windowId)`. -/
def IncrementCall.addresses (c : IncrementCall) (key : String) (type : WindowType)
    (windowId : String) : Bool :=
  c.key == key && c.type == type && c.windowId == windowId

/-- The calls executed against the store one after another, in list order:
the counts they return, in that order, and the collection afterwards. -/
def incrementAll : List IncrementCall → List UsageWindow → List Nat × List UsageWindow
  | [], coll => ([], coll)
  | c :: rest, coll =>
    let r := incrementAndGet c.key c.type c.windowId c.expiry coll
    let rs := incrementAll rest r.2
    (r.1 :: rs.1, rs.2)

/-! ## `models/ApiKey.js` -/

/-- A document of the `ApiKey` collection.  The limits are numbers: the schema
asks for `min: 1`, which Mongoose checks on `create` only. -/
structure ApiKey where
  id : Nat
  name : String
  key : String
  perMinute : Int
  perDay : Int
  active : Bool
  createdAt : Date
  deriving DecidableEq, Repr

/-- `ApiKey.findActiveKey(key)`: `findOne({ key, active: true })`. -/
def findActiveKey (coll : List ApiKey) (key : String) : Option ApiKey :=
  coll.find? (fun d => d.key == key && d.active == true)

/-! ## `models/AccessLog.js` -/

/-- A document of the `AccessLog` collection. -/
structure AccessLog where
  key : String
  endpoint : String
  status : Nat
  timestamp : Date
  minuteCount : Nat
  dayCount : Nat
  deriving DecidableEq, Repr

/-! ## `middleware/rateLimiter.js` -/

/-- The payload of a `'usage.update'` Socket.io event. -/
structure UsageUpdate where
  key : String
  minute : Nat
  day : Nat
  keyId : Nat
  deriving DecidableEq, Repr

/-- The database and the events emitted so far. -/
structure World where
  apiKeys : List ApiKey
  usageWindows : List UsageWindow
  accessLogs : List AccessLog
  emitted : List UsageUpdate
  deriving DecidableEq, Repr

/-- An incoming request: the `x-api-key` header (absent or a string) and the
path. -/
structure Request where
  apiKey : Option String
  path : String
  deriving DecidableEq, Repr

/-- The JSON body of a response sent by the middleware. -/
inductive Body
  | error (error : String)
  | errorLimit (error : String) (limit : Int)
  deriving DecidableEq, Repr

/-- `res.status(status).json(body)`. -/
structure Response where
  status : Nat
  body : Body
  deriving DecidableEq, Repr

/-- How the middleware finishes: it sends a response, or it calls `next()`
with `req.usage` and `req.apiKeyData` set. -/
inductive Outcome
  | responded (res : Response)
  | next (usage : Usage) (apiKeyData : ApiKey)
  deriving DecidableEq, Repr

/-- Which of the awaited store operations of one request reject. -/
structure Faults where
  findActiveKey : Bool := false
  minuteIncrement : Bool := false
  dayIncrement : Bool := false
  accessLog : Bool := false
  deriving DecidableEq, Repr

/-- What one request reads from its surroundings: the clock at `new Date()`,
the clock at the `Date.now` default of the access log, and the store
operations that reject. -/
structure Env where
  now : Date
  logTime : Date
  faults : Faults := {}
  deriving DecidableEq, Repr

/-- The HTTP status a caller observes: the response status, or 200 when the
request is passed on to the protected route. -/
def Outcome.status : Outcome → Nat
  | .responded res => res.status
  | .next _ _ => 200

/-- The expiry of the minute window: `minuteExpiry = new Date(now)` followed
by `minuteExpiry.setMinutes(minuteExpiry.getMinutes() + 1)`.  Here `now` and
the result are local time values; `minuteExpiryIn` is the same code on
instants, for a server in a given zone. -/
def minuteExpiry (now : Date) : Date := setMinutes now (getMinutes now + 1)

/-- The expiry of the day window: `dayExpiry = new Date(now)` followed by
`dayExpiry.setDate(dayExpiry.getDate() + 1)` and
`dayExpiry.setHours(0, 0, 0, 0)`.  Here `now` and the result are local time
values; `dayExpiryIn` is the same code on instants, for a server in a given
zone. -/
def dayExpiry (now : Date) : Date := setHours (setDate now (getDate now + 1)) 0 0 0 0

/-- The expiry of the minute window on a server in zone `z`, from the instant
`now`: `minuteExpiry = new Date(now)` followed by
`minuteExpiry.setMinutes(minuteExpiry.getMinutes() + 1)`. -/
def minuteExpiryIn (z : TimeZone) (now : Date) : Date :=
  setMinutesIn z now (getMinutesIn z now + 1)

/-- The expiry of the day window on a server in zone `z`, from the instant
`now`: `dayExpiry = new Date(now)` followed by
`dayExpiry.setDate(dayExpiry.getDate() + 1)` and
`dayExpiry.setHours(0, 0, 0, 0)`. -/
def dayExpiryIn (z : TimeZone) (now : Date) : Date :=
  setHoursIn z (setDateIn z now (getDateIn z now + 1)) 0 0 0 0

/-- The `catch` branch: `res.status(500).json({ error: 'Internal server error' })`. -/
def internalServerError : Outcome :=
  .responded { status := 500, body := .error "Internal server error" }

/-- `AccessLog.create({ key, endpoint, status, minuteCount, dayCount })`. -/
def AccessLog.create ( env : Env) (key endpoint : String) (status minuteCount dayCount : Nat)
    (w : World) : World :=
  { w with accessLogs := w.accessLogs ++
      [{ key := key, endpoint := endpoint, status := status, timestamp := env.logTime,
         minuteCount := minuteCount, dayCount := dayCount }] }

/-- The part of the middleware from `// Check rate limits` to `next()`, run
with the two counts the increments returned; `w` is the world after the
increments.  A rejected `AccessLog.create` throws into the `catch` branch. -/
def checkRateLimits (io : Bool) (env : Env) (req : Request) (apiKey : String)
    (keyData : ApiKey) (minuteCount dayCount : Nat) (w : World) : Outcome × World :=
  if (minuteCount : Int) > keyData.perMinute then
    if env.faults.accessLog then (internalServerError, w)
    else
      (.responded { status := 429, body := .errorLimit "Too Many Requests" keyData.perMinute },
       AccessLog.create env apiKey req.path 429 minuteCount dayCount w)
  else if (dayCount : Int) > keyData.perDay then
    if env.faults.accessLog then (internalServerError, w)
    else
      (.responded { status := 429, body := .errorLimit "Daily quota exceeded" keyData.perDay },
       AccessLog.create env apiKey req.path 429 minuteCount dayCount w)
  else
    if env.faults.accessLog then (internalServerError, w)
    else
      let w2 := AccessLog.create env apiKey req.path 200 minuteCount dayCount w
      let w3 : World :=
        if io then
          { w2 with emitted := w2.emitted ++
              [{ key := apiKey, minute := minuteCount, day := dayCount, keyId := keyData.id }] }
        else w2
      (.next { minute := minuteCount, day := dayCount } keyData, w3)

/-- The middleware `rateLimiter(io)(req, res, next)`; `io` tells whether a
Socket.io server was supplied.  The two increments of `Promise.all` address
different documents and are both issued before either result is awaited.
The clock reading `env.now` and the expiries are local time values, as on a
server whose zone has no transitions; `rateLimiterIn` is the middleware on
instants, for a server in a given zone. -/
def rateLimiter (io : Bool) (env : Env) (req : Request) (w : World) : Outcome × World :=
  match req.apiKey with
  | none => (.responded { status := 401, body := .error "API key is required" }, w)
  | some apiKey =>
    if apiKey = "" then
      (.responded { status := 401, body := .error "API key is required" }, w)
    else if env.faults.findActiveKey then (internalServerError, w)
    else
      match findActiveKey w.apiKeys apiKey with
      | none => (.responded { status := 401, body := .error "Invalid or inactive API key" }, w)
      | some keyData =>
        let now := env.now
        let minuteWindowId := getMinuteWindowId now
        let dayWindowId := getDayWindowId now
        let m :=
          if env.faults.minuteIncrement then (none, w.usageWindows)
          else
            let r := incrementAndGet apiKey .minute minuteWindowId (minuteExpiry now)
              w.usageWindows
            (some r.1, r.2)
        let d :=
          if env.faults.dayIncrement then (none, m.2)
          else
            let r := incrementAndGet apiKey .day dayWindowId (dayExpiry now) m.2
            (some r.1, r.2)
        let w1 : World := { w with usageWindows := d.2 }
        match m.1, d.1 with
        | some minuteCount, some dayCount =>
          checkRateLimits io env req apiKey keyData minuteCount dayCount w1
        | _, _ => (internalServerError, w1)

/-- The middleware `rateLimiter(io)(req, res, next)` on a server in zone `z`.
The clock reading `env.now` is an instant, the window ids are taken from its
local time, and the expiries handed to the store are instants. -/
def rateLimiterIn (z : TimeZone) (io : Bool) (env : Env) (req : Request) (w : World) :
    Outcome × World :=
  match req.apiKey with
  | none => (.responded { status := 401, body := .error "API key is required" }, w)
  | some apiKey =>
    if apiKey = "" then
      (.responded { status := 401, body := .error "API key is required" }, w)
    else if env.faults.findActiveKey then (internalServerError, w)
    else
      match findActiveKey w.apiKeys apiKey with
      | none => (.responded { status := 401, body := .error "Invalid or inactive API key" }, w)
      | some keyData =>
        let now := env.now
        let minuteWindowId := getMinuteWindowIdIn z now
        let dayWindowId := getDayWindowIdIn z now
        let m :=
          if env.faults.minuteIncrement then (none, w.usageWindows)
          else
            let r := incrementAndGet apiKey .minute minuteWindowId (minuteExpiryIn z now)
              w.usageWindows
            (some r.1, r.2)
        let d :=
          if env.faults.dayIncrement then (none, m.2)
          else
            let r := incrementAndGet apiKey .day dayWindowId (dayExpiryIn z now) m.2
            (some r.1, r.2)
        let w1 : World := { w with usageWindows := d.2 }
        match m.1, d.1 with
        | some minuteCount, some dayCount =>
          checkRateLimits io env req apiKey keyData minuteCount dayCount w1
        | _, _ => (internalServerError, w1)

/-- A request as it reaches the middleware: whether `io` was supplied, what
the request reads from its surroundings, and the request itself. -/
structure Arrival where
  io : Bool
  env : Env
  req : Request
  deriving DecidableEq, Repr

/-- One step of a run of the server: a request served by the middleware, or
a rewrite of the key collection by the key-management routes. -/
inductive Step
  | request (a : Arrival)
  | directory (apiKeys : List ApiKey)
  deriving DecidableEq, Repr

/-- Serves the steps one after another; returns the outcome of each request
step, in order, and the final world.  The usage windows change through the
middleware only: the background removal of documents past their `expiresAt`
(the TTL index of the schema) is not a step. -/
def run : List Step → World → List Outcome × World
  | [], w => ([], w)
  | .request a :: rest, w =>
    let r := rateLimiter a.io a.env a.req w
    let rs := run rest r.2
    (r.1 :: rs.1, rs.2)
  | .directory apiKeys :: rest, w => run rest { w with apiKeys := apiKeys }

/-- The request steps of a run, in order. -/
def requestsOf : List Step → List Arrival
  | [] => []
  | .request a :: rest => a :: requestsOf rest
  | .directory _ :: rest => requestsOf rest

/-- Each request of a run paired with its outcome. -/
def served (steps : List Step) (w : World) : List (Arrival × Outcome) :=
  (requestsOf steps).zip (run steps w).1

/-- Whether the request was allowed: `next()` was called. -/
def Outcome.allowed : Outcome → Bool
  | .next _ _ => true
  | .responded _ => false

/-- The id of the window of the given type that contains `now`. -/
def windowIdOf (type : WindowType) (now : Date) : String :=
  match type with
  | .minute => getMinuteWindowId now
  | .day => getDayWindowId now

/-- The limit of a key that applies to windows of the given type. -/
def limitOf (type : WindowType) (keyData : ApiKey) : Int :=
  match type with
  | .minute => keyData.perMinute
  | .day => keyData.perDay

/-- The number of served requests that carry key `k`, fall in the window
`windowId` of the given type, and were allowed. -/
def allowedInWindow (k : String) (type : WindowType) (windowId : String)
    (tr : List (Arrival × Outcome)) : Nat :=
  tr.countP fun p =>
    p.1.req.apiKey == some k && windowIdOf type p.1.env.now == windowId && p.2.allowed

/-! ## `routes/admin.js`: `DELETE /keys/:id` -/

/-- Which of the awaited store operations of `DELETE /keys/:id` reject. -/
structure DeleteFaults where
  findById : Bool := false
  findByIdAndDelete : Bool := false
  usageCleanup : Bool := false
  logCleanup : Bool := false
  deriving DecidableEq, Repr

/-- The response of `DELETE /keys/:id`: 404 `'API key not found'`, 500
`'Failed to delete API key'`, or the success message with the deleted key's
id, key and name. -/
inductive DeleteOutcome
  | notFound
  | failed
  | deleted (id : Nat) (key name : String)
  deriving DecidableEq, Repr

/-- The clean-up inside the inner `try`: `UsageWindow.deleteMany({ key })`
followed by `AccessLog.deleteMany({ key })`; a rejection skips what follows
and is only logged. -/
def cleanupUsage (faults : DeleteFaults) (keyValue : String) (w : World) : World :=
  if faults.usageCleanup then w
  else
    let w1 : World := { w with usageWindows := w.usageWindows.filter (fun d => d.key != keyValue) }
    if faults.logCleanup then w1
    else { w1 with accessLogs := w1.accessLogs.filter (fun l => l.key != keyValue) }

/-- The handler of `DELETE /keys/:id`. -/
def deleteKey (faults : DeleteFaults) (id : Nat) (w : World) : DeleteOutcome × World :=
  if faults.findById then (.failed, w)
  else
    match w.apiKeys.find? (fun d => d.id == id) with
    | none => (.notFound, w)
    | some apiKey =>
      let keyValue := apiKey.key
      if faults.findByIdAndDelete then (.failed, w)
      else
        let w1 : World := { w with apiKeys := w.apiKeys.eraseP (fun d => d.id == id) }
        (.deleted id keyValue apiKey.name, cleanupUsage faults keyValue w1)

/-- The expiry the middleware passes for a window of the given type. -/
def windowExpiryOf (type : WindowType) (now : Date) : Date :=
  match type with
  | .minute => minuteExpiry now
  | .day => dayExpiry now

/-! ## `routes/admin.js`: `POST /keys` and `PUT /keys/:id` -/

/-- The characters `String.prototype.trim` removes: ECMA-262 `WhiteSpace`
(tab, vertical tab, form feed, U+FEFF and the space separators) and
`LineTerminator` (line feed, carriage return, U+2028, U+2029). -/
def isWhiteSpace (c : Char) : Bool :=
  let n := c.toNat
  (0x9 ≤ n && n ≤ 0xD) || n == 0x20 || n == 0xA0 || n == 0x1680
    || (0x2000 ≤ n && n ≤ 0x200A) || n == 0x2028 || n == 0x2029 || n == 0x202F
    || n == 0x205F || n == 0x3000 || n == 0xFEFF

/-- The `trim: true` setter of the schema, `String.prototype.trim`:
whitespace removed at both ends. -/
def trim (s : String) : String :=
  String.mk ((s.data.dropWhile isWhiteSpace).reverse.dropWhile isWhiteSpace).reverse

/-- The fields `POST /keys` reads from the body; an absent field is `none`. -/
structure CreateBody where
  name : Option String
  perMinute : Option Int
  perDay : Option Int
  deriving DecidableEq, Repr

/-- What `ApiKey.create` takes from its surroundings: the generated `_id`,
the `nanoid` default of `key`, the clock of `createdAt`, and whether the
insert is rejected by the store. -/
structure CreateEnv where
  id : Nat
  key : String
  now : Date
  storeFails : Bool := false
  deriving DecidableEq, Repr

/-- The fields `PUT /keys/:id` reads from the body; an absent field is `none`. -/
structure UpdateBody where
  name : Option String := none
  perMinute : Option Int := none
  perDay : Option Int := none
  active : Option Bool := none
  deriving DecidableEq, Repr

/-- The response of a key-management route: 400 `'Name is required'`, 201 with
the created key, 200 with the updated key, 404 `'API key not found'`, or 500. -/
inductive AdminOutcome
  | badRequest
  | created (apiKey : ApiKey)
  | updated (updatedKey : ApiKey)
  | notFound
  | failed
  deriving DecidableEq, Repr

/-- The expression `value || fallback` on an optional number: the fallback
replaces `undefined` and 0. -/
def orDefault (value : Option Int) (fallback : Int) : Int :=
  match value with
  | none => fallback
  | some v => if v = 0 then fallback else v

/-- The validators `ApiKey.create` runs before inserting: `name` required,
`perMinute` and `perDay` with `min: 1`, and the unique index on `key`. -/
def validApiKey (coll : List ApiKey) (doc : ApiKey) : Bool :=
  doc.name != "" && decide (1 ≤ doc.perMinute) && decide (1 ≤ doc.perDay)
    && !coll.any (fun d => d.key == doc.key)

/-- The handler of `POST /keys`: `ApiKey.createKey({ name, perMinute:
perMinute || 50, perDay: perDay || 1000 })` behind the check of `name`. -/
def createKeyRoute (env : CreateEnv) (body : CreateBody) (w : World) : AdminOutcome × World :=
  match body.name with
  | none => (.badRequest, w)
  | some name =>
    if name = "" then (.badRequest, w)
    else
      let doc : ApiKey :=
        { id := env.id, name := trim name, key := env.key,
          perMinute := orDefault body.perMinute 50, perDay := orDefault body.perDay 1000,
          active := true, createdAt := env.now }
      if env.storeFails || !validApiKey w.apiKeys doc then (.failed, w)
      else (.created doc, { w with apiKeys := w.apiKeys ++ [doc] })

/-- The `updateData` of `PUT /keys/:id` applied to a document: every field
present in the body is set, without validation. -/
def applyUpdate (body : UpdateBody) (d : ApiKey) : ApiKey :=
  { d with
    name := (body.name.map trim).getD d.name
    perMinute := body.perMinute.getD d.perMinute
    perDay := body.perDay.getD d.perDay
    active := body.active.getD d.active }

/-- `findByIdAndUpdate(id, updateData, { new: true })` on the collection: the
first document with that id is replaced by its update. -/
def findByIdAndUpdate (id : Nat) (body : UpdateBody) : List ApiKey → List ApiKey
  | [] => []
  | d :: rest =>
    if d.id == id then applyUpdate body d :: rest
    else d :: findByIdAndUpdate id body rest

/-- The handler of `PUT /keys/:id`. -/
def updateKeyRoute (storeFails : Bool) (id : Nat) (body : UpdateBody) (w : World) :
    AdminOutcome × World :=
  if storeFails then (.failed, w)
  else
    match w.apiKeys.find? (fun d => d.id == id) with
    | none => (.notFound, w)
    | some d =>
      (.updated (applyUpdate body d),
       { w with apiKeys := findByIdAndUpdate id body w.apiKeys })

/-- An administrative operation on the key collection. -/
inductive AdminOp
  | create (env : CreateEnv) (body : CreateBody)
  | update (storeFails : Bool) (id : Nat) (body : UpdateBody)
  deriving DecidableEq, Repr

/-- The operations applied one after another. -/
def runAdmin : List AdminOp → World → World
  | [], w => w
  | .create env body :: rest, w => runAdmin rest (createKeyRoute env body w).2
  | .update storeFails id body :: rest, w => runAdmin rest (updateKeyRoute storeFails id body w).2

/-! ## `simulate/burst.js` -/

/-- How the promise of `axios.get` settles for a response with the given
status under the default `validateStatus` (2xx resolves, anything else
rejects with `error.response.status`). -/
inductive AxiosResult
  | resolved (status : Nat)
  | rejected (status : Nat)
  deriving DecidableEq, Repr

/-- `makeRequest(apiKey, index)` when the server answers with `status`. -/
def makeRequest (status : Nat) : AxiosResult :=
  if 200 ≤ status ∧ status < 300 then .resolved status else .rejected status

/-- The `results` object of `burst`; `requests` holds index and status. -/
structure BurstResults where
  success : Nat
  rateLimited : Nat
  errors : Nat
  requests : List (Nat × Nat)
  deriving DecidableEq, Repr

/-- The `.then` and `.catch` callbacks of one request of a batch; `server`
gives the status the server answers to the request with that index. -/
def recordRequest (server : Nat → Nat) (results : BurstResults) (index : Nat) : BurstResults :=
  match makeRequest (server index) with
  | .resolved status =>
    if status = 200 then
      { results with success := results.success + 1,
                     requests := results.requests ++ [(index, status)] }
    else
      { results with rateLimited := results.rateLimited + 1,
                     requests := results.requests ++ [(index, status)] }
  | .rejected status =>
    { results with errors := results.errors + 1,
                   requests := results.requests ++ [(index, status)] }

/-- The inner loop of the batching: the indices `i + j` for `j < concurrency`
while `i + j < numRequests`. -/
def batchAt (numRequests concurrency i : Nat) : List Nat :=
  ((List.range concurrency).map (fun j => i + j)).takeWhile (fun n => n < numRequests)

/-- The outer loop `for (let i = 0; i < numRequests; i += concurrency)`, run
for at most `fuel` iterations; `none` when the loop has not ended by then. -/
def makeBatches (numRequests concurrency : Nat) : Nat → Nat → Option (List (List Nat))
  | 0, i => if i < numRequests then none else some []
  | fuel + 1, i =>
    if i < numRequests then
      (makeBatches numRequests concurrency fuel (i + concurrency)).map
        (fun batches => batchAt numRequests concurrency i :: batches)
    else some []

/-- `burst(apiKey, numRequests, concurrency)` for a non-empty `apiKey`: the
batches are processed in order and the callbacks of a batch run in index
order, which does not matter for the counters. -/
def burst (server : Nat → Nat) (numRequests concurrency : Nat) : Option BurstResults :=
  (makeBatches numRequests concurrency numRequests 0).map fun batches =>
    batches.foldl (fun results batch => batch.foldl (recordRequest server) results)
      { success := 0, rateLimited := 0, errors := 0, requests := [] }

/-- The usage window with its expiry moved by `c` milliseconds. -/
def UsageWindow.shiftExpiry (c : Int) (d : UsageWindow) : UsageWindow :=
  { d with expiresAt := d.expiresAt + c }

/-- The world with every expiry of the usage windows given as the local time
value of a zone that is `c` milliseconds ahead of UTC. -/
def World.toLocal (c : Int) (w : World) : World :=
  { w with usageWindows := w.usageWindows.map (UsageWindow.shiftExpiry c) }

/-! ## Sample data

The second seed key of `simulateKeys.js` (5 per minute, 100 per day) and a
request on `/protected` at 2024-02-29 23:59:30.123 local time. -/

def limitedKey : ApiKey :=
  { id := 2, name := "Limited API Key", key := "ak_limited", perMinute := 5, perDay := 100,
    active := true, createdAt := 0 }

def inactiveKey : ApiKey :=
  { id := 3, name := "Retired API Key", key := "ak_retired", perMinute := 5, perDay := 100,
    active := false, createdAt := 0 }

def sampleNow : Date := 19782 * 86400000 + 23 * 3600000 + 59 * 60000 + 30123

def sampleEnv : Env := { now := sampleNow, logTime := sampleNow + 4 }

def sampleRequest : Request := { apiKey := some "ak_limited", path := "/" }

def sampleWorld : World :=
  { apiKeys := [limitedKey, inactiveKey], usageWindows := [], accessLogs := [], emitted := [] }

/-- Seven requests of the limited key one second apart, from 23:59:30.123 to
23:59:36.123. -/
def sampleArrivals : List Arrival :=
  (List.range 7).map fun i =>
    { io := true
      env := { now := sampleNow + 1000 * (i : Int), logTime := sampleNow + 1000 * (i : Int) + 4 }
      req := sampleRequest }

/-- The sample world with the minute and day windows of `sampleNow` already
counting `m` and `d` requests of the limited key. -/
def sampleWorldAt (m d : Nat) : World :=
  { sampleWorld with
    usageWindows :=
      [{ key := "ak_limited", type := .minute, windowId := "20240229-2359", count := m,
         expiresAt := sampleNow + 60000 },
       { key := "ak_limited", type := .day, windowId := "20240229", count := d,
         expiresAt := 19783 * 86400000 }] }

/-- The sample environment with `AccessLog.create` rejecting. -/
def sampleEnvLogFails : Env := { sampleEnv with faults := { accessLog := true } }

/-- A store whose only document is a minute window of the limited key that
counts 3 and expired at time 0, long before `sampleNow`. -/
def staleStore : List UsageWindow :=
  [{ key := "ak_limited", type := .minute, windowId := "20240229-2359", count := 3,
     expiresAt := 0 }]

/-- The zone `America/New_York` around 2024: five hours behind UTC, four
hours behind from 2024-03-10T07:00:00Z (02:00 becomes 03:00) and five hours
behind again from 2024-11-03T06:00:00Z (02:00 becomes 01:00, so the local
hour from 01:00 to 02:00 occurs twice). -/
def newYork : TimeZone :=
  { offset := -5 * 3600000
    transitions :=
      [(19792 * 86400000 + 7 * 3600000, -4 * 3600000),
       (20030 * 86400000 + 6 * 3600000, -5 * 3600000)] }

/-- The instant 2024-11-03T06:30:15.250Z: in New York 01:30:15.250, in the
second occurrence of that local hour. -/
def repeatedHourNow : Date := 20030 * 86400000 + 6 * 3600000 + 30 * 60000 + 15250

/-- The instant 2024-11-03T05:59:30.000Z: in New York 01:59:30, in the first
occurrence of that local hour, half a minute before the clocks are set back. -/
def beforeFallBackNow : Date := 20030 * 86400000 + 5 * 3600000 + 59 * 60000 + 30000

/-- A request of the limited key at `repeatedHourNow`. -/
def repeatedHourEnv : Env := { now := repeatedHourNow, logTime := repeatedHourNow + 4 }

/-! ## Window ids -/

theorem pad2_length (n : Int) (h0 : 0 ≤ n) (h1 : n < 60) : (pad2 n).length = 2 := by
  interval_cases n <;> rfl

theorem getHours_range (d : Date) : 0 ≤ getHours d ∧ getHours d < 60 := by
  unfold getHours HourFromTime
  omega

theorem getMinutes_range (d : Date) : 0 ≤ getMinutes d ∧ getMinutes d < 60 := by
  unfold getMinutes MinFromTime
  omega

theorem getMinuteWindowId_eq_append (d : Date) :
    getMinuteWindowId d = getDayWindowId d ++ "-" ++ pad2 (getHours d) ++ pad2 (getMinutes d) :=
  rfl

/-- Two instants with the same minute window id have the same day window id. -/
theorem getDayWindowId_eq_of_minute (a b : Date)
    (h : getMinuteWindowId a = getMinuteWindowId b) : getDayWindowId a = getDayWindowId b := by
  rw [getMinuteWindowId_eq_append, getMinuteWindowId_eq_append] at h
  have hl := congrArg String.data h
  simp only [String.data_append] at hl
  have e1 := List.append_inj_left' hl (by
    have := pad2_length _ (getMinutes_range a).1 (getMinutes_range a).2
    have := pad2_length _ (getMinutes_range b).1 (getMinutes_range b).2
    simp only [String.length] at *
    omega)
  have e2 := List.append_inj_left' e1 (by
    have := pad2_length _ (getHours_range a).1 (getHours_range a).2
    have := pad2_length _ (getHours_range b).1 (getHours_range b).2
    simp only [String.length] at *
    omega)
  have e3 := List.append_inj_left' e2 rfl
  exact String.ext e3

/-! ## The counter store -/

theorem matchesWindow_iff (key : String) (type : WindowType) (windowId : String)
    (d : UsageWindow) :
    matchesWindow key type windowId d = true ↔
      d.key = key ∧ d.type = type ∧ d.windowId = windowId := by
  simp [matchesWindow, and_assoc]

theorem matchesWindow_inc (key : String) (type : WindowType) (windowId : String)
    (d : UsageWindow) (n : Nat) :
    matchesWindow key type windowId { d with count := n } = matchesWindow key type windowId d :=
  rfl

/-- The document `findOneAndUpdate` returns: the first match with its count
incremented, or the inserted document. -/
theorem findOneAndUpdate_fst (key : String) (type : WindowType) (windowId : String)
    (expiry : Date) (coll : List UsageWindow) :
    (findOneAndUpdate key type windowId expiry coll).1 =
      match findOneWindow key type windowId coll with
      | none => { key := key, type := type, windowId := windowId, count := 1,
                  expiresAt := expiry }
      | some d => { d with count := d.count + 1 } := by
  induction coll with
  | nil => rfl
  | cons d rest ih =>
    by_cases h : matchesWindow key type windowId d = true
    · simp [findOneAndUpdate, findOneWindow, List.find?_cons, h]
    · simp only [Bool.not_eq_true] at h
      simpa [findOneAndUpdate, findOneWindow, List.find?_cons, h] using ih

/-- After the update the composite key's document is the returned one. -/
theorem findOneWindow_findOneAndUpdate_self (key : String) (type : WindowType)
    (windowId : String) (expiry : Date) (coll : List UsageWindow) :
    findOneWindow key type windowId (findOneAndUpdate key type windowId expiry coll).2 =
      some (findOneAndUpdate key type windowId expiry coll).1 := by
  induction coll with
  | nil => simp [findOneAndUpdate, findOneWindow, List.find?_cons, matchesWindow]
  | cons d rest ih =>
    by_cases h : matchesWindow key type windowId d = true
    · simp [findOneAndUpdate, findOneWindow, List.find?_cons, h, matchesWindow_inc]
    · simp only [Bool.not_eq_true] at h
      simpa [findOneAndUpdate, findOneWindow, List.find?_cons, h] using ih

/-- The update leaves the document of every other composite key as it was. -/
theorem findOneWindow_findOneAndUpdate_other (key key' : String) (type type' : WindowType)
    (windowId windowId' : String) (expiry : Date) (coll : List UsageWindow)
    (hne : ¬ (key' = key ∧ type' = type ∧ windowId' = windowId)) :
    findOneWindow key' type' windowId' (findOneAndUpdate key type windowId expiry coll).2 =
      findOneWindow key' type' windowId' coll := by
  induction coll with
  | nil =>
    have h : matchesWindow key' type' windowId'
        { key := key, type := type, windowId := windowId, count := 1, expiresAt := expiry }
          = false := by
      rw [Bool.eq_false_iff]
      intro hm
      rw [matchesWindow_iff] at hm
      exact hne ⟨hm.1.symm, hm.2.1.symm, hm.2.2.symm⟩
    simp [findOneAndUpdate, findOneWindow, List.find?_cons, h]
  | cons d rest ih =>
    by_cases h : matchesWindow key type windowId d = true
    · have h' : matchesWindow key' type' windowId' d = false := by
        rw [Bool.eq_false_iff]
        intro hm
        rw [matchesWindow_iff] at hm h
        exact hne ⟨hm.1.symm.trans h.1, hm.2.1.symm.trans h.2.1, hm.2.2.symm.trans h.2.2⟩
      simp [findOneAndUpdate, findOneWindow, List.find?_cons, h, h', matchesWindow_inc]
    · simp only [Bool.not_eq_true] at h
      by_cases h' : matchesWindow key' type' windowId' d = true
      · simp [findOneAndUpdate, findOneWindow, List.find?_cons, h, h']
      · simp only [Bool.not_eq_true] at h'
        simpa [findOneAndUpdate, findOneWindow, List.find?_cons, h, h'] using ih

theorem incrementAndGet_fst (key : String) (type : WindowType) (windowId : String)
    (expiry : Date) (coll : List UsageWindow) :
    (incrementAndGet key type windowId expiry coll).1 = countOf key type windowId coll + 1 := by
  simp only [incrementAndGet, countOf, findOneAndUpdate_fst]
  cases findOneWindow key type windowId coll <;> rfl

theorem countOf_incrementAndGet_self (key : String) (type : WindowType) (windowId : String)
    (expiry : Date) (coll : List UsageWindow) :
    countOf key type windowId (incrementAndGet key type windowId expiry coll).2 =
      countOf key type windowId coll + 1 := by
  have h := incrementAndGet_fst key type windowId expiry coll
  simp only [incrementAndGet] at h
  simp [countOf, incrementAndGet, findOneWindow_findOneAndUpdate_self, h]

theorem countOf_incrementAndGet_other (key key' : String) (type type' : WindowType)
    (windowId windowId' : String) (expiry : Date) (coll : List UsageWindow)
    (hne : ¬ (key' = key ∧ type' = type ∧ windowId' = windowId)) :
    countOf key' type' windowId' (incrementAndGet key type windowId expiry coll).2 =
      countOf key' type' windowId' coll := by
  simp [countOf, incrementAndGet, findOneWindow_findOneAndUpdate_other _ _ _ _ _ _ _ _ hne]

/-- C8. `incrementAndGet` returns 1 when the composite key has no document and
the existing count plus 1 otherwise, and the document stored for the composite
key afterwards carries exactly the returned count: the inserted document
`{ key, type, windowId, count: 1, expiresAt: expiry }` in the first case, the
existing one with only its count changed in the second. -/
theorem incrementAndGet_post_increment (key : String) (type : WindowType) (windowId : String)
    (expiry : Date) (coll : List UsageWindow) :
    (incrementAndGet key type windowId expiry coll).1 =
        (match findOneWindow key type windowId coll with
         | none => 1
         | some d => d.count + 1)
      ∧ findOneWindow key type windowId (incrementAndGet key type windowId expiry coll).2 =
        (match findOneWindow key type windowId coll with
         | none => some { key := key, type := type, windowId := windowId, count := 1,
                          expiresAt := expiry }
         | some d => some { d with count := d.count + 1 })
      ∧ (findOneWindow key type windowId
            (incrementAndGet key type windowId expiry coll).2).map (·.count) =
          some (incrementAndGet key type windowId expiry coll).1 := by
  simp only [incrementAndGet, findOneWindow_findOneAndUpdate_self, findOneAndUpdate_fst]
  cases findOneWindow key type windowId coll <;> simp

theorem addresses_iff (c : IncrementCall) (key : String) (type : WindowType)
    (windowId : String) :
    c.addresses key type windowId = true ↔
      key = c.key ∧ type = c.type ∧ windowId = c.windowId := by
  simp only [IncrementCall.addresses, Bool.and_eq_true, beq_iff_eq, and_assoc]
  constructor
  · rintro ⟨h1, h2, h3⟩
    exact ⟨h1.symm, h2.symm, h3.symm⟩
  · rintro ⟨h1, h2, h3⟩
    exact ⟨h1.symm, h2.symm, h3.symm⟩

/-- C9. `expiresAt` is stamped on creation only.  After any sequence of
`incrementAndGet` calls (on any composite keys, with any expiry arguments) the
document of a composite key has the `expiresAt` it had before the sequence if
it existed then, and otherwise the expiry argument of the first call of the
sequence that addresses this composite key; later calls never change it. -/
theorem expiresAt_set_on_insert_only (calls : List IncrementCall) (key : String)
    (type : WindowType) (windowId : String) (coll : List UsageWindow) :
    (findOneWindow key type windowId (incrementAll calls coll).2).map (·.expiresAt) =
      match findOneWindow key type windowId coll with
      | some d => some d.expiresAt
      | none => (calls.find? (fun c => c.addresses key type windowId)).map (·.expiry) := by
  induction calls generalizing coll with
  | nil => cases h : findOneWindow key type windowId coll <;> simp [incrementAll, h]
  | cons c rest ih =>
    simp only [incrementAll]
    rw [ih]
    by_cases h : c.addresses key type windowId = true
    · have hk := (addresses_iff c key type windowId).mp h
      obtain ⟨h1, h2, h3⟩ := hk
      subst h1 h2 h3
      simp only [incrementAndGet, findOneWindow_findOneAndUpdate_self, findOneAndUpdate_fst,
        List.find?_cons, h]
      cases findOneWindow c.key c.type c.windowId coll <;> rfl
    · have hne : ¬ (key = c.key ∧ type = c.type ∧ windowId = c.windowId) := fun hk =>
        h ((addresses_iff c key type windowId).mpr hk)
      simp only [Bool.not_eq_true] at h
      simp only [incrementAndGet, findOneWindow_findOneAndUpdate_other _ _ _ _ _ _ _ _ hne,
        List.find?_cons, h]

/-! ## The middleware -/

theorem findActiveKey_eq_none (coll : List ApiKey) (key : String) :
    findActiveKey coll key = none ↔ ∀ d ∈ coll, ¬ (d.key = key ∧ d.active = true) := by
  simp [findActiveKey]

/-- On the path where the key is active and the lookup and both increments
succeed, the middleware is the limit check run on the two incremented counts. -/
theorem rateLimiter_active (io : Bool) (env : Env) (req : Request) (w : World)
    (apiKey : String) (keyData : ApiKey)
    (hkey : req.apiKey = some apiKey) (hne : apiKey ≠ "")
    (hactive : findActiveKey w.apiKeys apiKey = some keyData)
    (hf1 : env.faults.findActiveKey = false) (hf2 : env.faults.minuteIncrement = false)
    (hf3 : env.faults.dayIncrement = false) :
    rateLimiter io env req w =
      checkRateLimits io env req apiKey keyData
        (countOf apiKey .minute (getMinuteWindowId env.now) w.usageWindows + 1)
        (countOf apiKey .day (getDayWindowId env.now) w.usageWindows + 1)
        { w with usageWindows :=
            (incrementAndGet apiKey .day (getDayWindowId env.now) (dayExpiry env.now)
              (incrementAndGet apiKey .minute (getMinuteWindowId env.now) (minuteExpiry env.now)
                w.usageWindows).2).2 } := by
  unfold rateLimiter
  simp only [hkey, hne, hactive, hf1, hf2, hf3, if_false, Bool.false_eq_true]
  rw [incrementAndGet_fst, incrementAndGet_fst, countOf_incrementAndGet_other]
  simp

/-- The outcome of the limit check when `AccessLog.create` succeeds. -/
theorem checkRateLimits_fst (io : Bool) (env : Env) (req : Request) (apiKey : String)
    (keyData : ApiKey) (minuteCount dayCount : Nat) (w : World)
    (hlog : env.faults.accessLog = false) :
    (checkRateLimits io env req apiKey keyData minuteCount dayCount w).1 =
      if (minuteCount : Int) > keyData.perMinute then
        .responded { status := 429, body := .errorLimit "Too Many Requests" keyData.perMinute }
      else if (dayCount : Int) > keyData.perDay then
        .responded { status := 429, body := .errorLimit "Daily quota exceeded" keyData.perDay }
      else .next { minute := minuteCount, day := dayCount } keyData := by
  unfold checkRateLimits
  simp only [hlog, if_false, Bool.false_eq_true]
  split_ifs <;> rfl

/-- C3. A request with an active key whose store operations all succeed is
allowed (`next()` is called with `req.usage` set to the two post-increment
counts, status 200) exactly when `minuteCount <= perMinute` and
`dayCount <= perDay`, and is answered 429 exactly when not; a count equal to
the limit is allowed and a count of limit + 1 is denied. -/
theorem allowed_iff_counts_within_limits (io : Bool) (env : Env) (req : Request) (w : World)
    (apiKey : String) (keyData : ApiKey)
    (hkey : req.apiKey = some apiKey) (hne : apiKey ≠ "")
    (hactive : findActiveKey w.apiKeys apiKey = some keyData)
    (hok : env.faults = {}) :
    let minuteCount := (incrementAndGet apiKey .minute (getMinuteWindowId env.now)
      (minuteExpiry env.now) w.usageWindows).1
    let dayCount := (incrementAndGet apiKey .day (getDayWindowId env.now)
      (dayExpiry env.now) w.usageWindows).1
    let out := (rateLimiter io env req w).1
    (out = .next { minute := minuteCount, day := dayCount } keyData ↔
        (minuteCount : Int) ≤ keyData.perMinute ∧ (dayCount : Int) ≤ keyData.perDay)
    ∧ (out.status = 200 ↔
        (minuteCount : Int) ≤ keyData.perMinute ∧ (dayCount : Int) ≤ keyData.perDay)
    ∧ (out.status = 429 ↔
        ¬ ((minuteCount : Int) ≤ keyData.perMinute ∧ (dayCount : Int) ≤ keyData.perDay))
    ∧ ((minuteCount : Int) = keyData.perMinute → (dayCount : Int) ≤ keyData.perDay →
        out.status = 200)
    ∧ ((minuteCount : Int) = keyData.perMinute + 1 → out.status = 429)
    ∧ ((dayCount : Int) = keyData.perDay + 1 → out.status = 429) := by
  have hf1 : env.faults.findActiveKey = false := by rw [hok]
  have hf2 : env.faults.minuteIncrement = false := by rw [hok]
  have hf3 : env.faults.dayIncrement = false := by rw [hok]
  have hf4 : env.faults.accessLog = false := by rw [hok]
  simp only [rateLimiter_active io env req w apiKey keyData hkey hne hactive hf1 hf2 hf3,
    checkRateLimits_fst _ _ _ _ _ _ _ _ hf4, incrementAndGet_fst]
  generalize countOf apiKey .minute (getMinuteWindowId env.now) w.usageWindows + 1 = mc
  generalize countOf apiKey .day (getDayWindowId env.now) w.usageWindows + 1 = dc
  by_cases h1 : (mc : Int) > keyData.perMinute
  · simp only [h1, if_true, Outcome.status]
    refine ⟨?_, ?_, ?_, ?_, ?_, ?_⟩ <;> simp <;> omega
  · by_cases h2 : (dc : Int) > keyData.perDay
    · simp only [h1, h2, if_true, if_false, Outcome.status]
      refine ⟨?_, ?_, ?_, ?_, ?_, ?_⟩ <;> simp <;> omega
    · simp only [h1, h2, if_false, Outcome.status]
      refine ⟨?_, ?_, ?_, ?_, ?_, ?_⟩ <;> simp <;> omega

theorem allowed_iff_counts_within_limits_witness :
    (rateLimiter true sampleEnv sampleRequest (sampleWorldAt 4 4)).1 =
        .next { minute := 5, day := 5 } limitedKey
      ∧ (rateLimiter true sampleEnv sampleRequest (sampleWorldAt 5 5)).1.status = 429 :=
  ⟨(allowed_iff_counts_within_limits true sampleEnv sampleRequest (sampleWorldAt 4 4)
      "ak_limited" limitedKey rfl (by decide) (by decide) rfl).1.mpr (by decide),
   (allowed_iff_counts_within_limits true sampleEnv sampleRequest (sampleWorldAt 5 5)
      "ak_limited" limitedKey rfl (by decide) (by decide) rfl).2.2.2.2.1 (by decide)⟩

/-- C4. Every response with status 429 comes from a request with an active
key and names the first exceeded quota in the order minute, day: when
`minuteCount > perMinute` the body is `'Too Many Requests'` with
`limit = perMinute`, whatever the day count; otherwise `dayCount > perDay`
holds and the body is `'Daily quota exceeded'` with `limit = perDay`. -/
theorem denial_reports_first_exceeded_quota (io : Bool) (env : Env) (req : Request)
    (w : World) (res : Response)
    (hres : (rateLimiter io env req w).1 = .responded res) (h429 : res.status = 429) :
    ∃ apiKey keyData, req.apiKey = some apiKey ∧
      findActiveKey w.apiKeys apiKey = some keyData ∧
      let minuteCount := (incrementAndGet apiKey .minute (getMinuteWindowId env.now)
        (minuteExpiry env.now) w.usageWindows).1
      let dayCount := (incrementAndGet apiKey .day (getDayWindowId env.now)
        (dayExpiry env.now) w.usageWindows).1
      if (minuteCount : Int) > keyData.perMinute then
        res.body = .errorLimit "Too Many Requests" keyData.perMinute
      else
        (dayCount : Int) > keyData.perDay ∧
          res.body = .errorLimit "Daily quota exceeded" keyData.perDay := by
  cases hk : req.apiKey with
  | none =>
    simp only [rateLimiter, hk] at hres
    cases hres
    simp at h429
  | some apiKey =>
    by_cases hne : apiKey = ""
    · simp only [rateLimiter, hk, hne, if_true] at hres
      cases hres
      simp at h429
    by_cases hf1 : env.faults.findActiveKey = true
    · simp only [rateLimiter, hk, hne, hf1, if_true, if_false, internalServerError] at hres
      cases hres
      simp at h429
    simp only [Bool.not_eq_true] at hf1
    cases ha : findActiveKey w.apiKeys apiKey with
    | none =>
      simp only [rateLimiter, hk, hne, hf1, ha, if_false, Bool.false_eq_true] at hres
      cases hres
      simp at h429
    | some keyData =>
      refine ⟨apiKey, keyData, rfl, ha, ?_⟩
      by_cases hf2 : env.faults.minuteIncrement = true
      · simp only [rateLimiter, hk, hne, hf1, hf2, ha, if_true, if_false, Bool.false_eq_true,
          internalServerError] at hres
        cases hres
        simp at h429
      simp only [Bool.not_eq_true] at hf2
      by_cases hf3 : env.faults.dayIncrement = true
      · simp only [rateLimiter, hk, hne, hf1, hf2, hf3, ha, if_true, if_false,
          Bool.false_eq_true, internalServerError] at hres
        cases hres
        simp at h429
      simp only [Bool.not_eq_true] at hf3
      rw [rateLimiter_active io env req w apiKey keyData hk hne ha hf1 hf2 hf3] at hres
      simp only [incrementAndGet_fst]
      generalize countOf apiKey .minute (getMinuteWindowId env.now) w.usageWindows + 1 = mc
        at hres ⊢
      generalize countOf apiKey .day (getDayWindowId env.now) w.usageWindows + 1 = dc
        at hres ⊢
      unfold checkRateLimits at hres
      by_cases hlog : env.faults.accessLog = true
      · simp only [hlog, if_true, internalServerError] at hres
        split_ifs at hres <;> (cases hres; simp at h429)
      simp only [Bool.not_eq_true] at hlog
      simp only [hlog, if_false, Bool.false_eq_true] at hres
      split_ifs at hres with h1 h2
      · cases hres
        simp [h1]
      · cases hres
        simp [h1, h2]

theorem denial_reports_first_exceeded_quota_witness :
    ∃ apiKey keyData, sampleRequest.apiKey = some apiKey ∧
      findActiveKey (sampleWorldAt 5 100).apiKeys apiKey = some keyData ∧
      let minuteCount := (incrementAndGet apiKey .minute (getMinuteWindowId sampleEnv.now)
        (minuteExpiry sampleEnv.now) (sampleWorldAt 5 100).usageWindows).1
      let dayCount := (incrementAndGet apiKey .day (getDayWindowId sampleEnv.now)
        (dayExpiry sampleEnv.now) (sampleWorldAt 5 100).usageWindows).1
      if (minuteCount : Int) > keyData.perMinute then
        Body.errorLimit "Too Many Requests" 5 =
          .errorLimit "Too Many Requests" keyData.perMinute
      else
        (dayCount : Int) > keyData.perDay ∧
          Body.errorLimit "Too Many Requests" 5 =
            .errorLimit "Daily quota exceeded" keyData.perDay :=
  denial_reports_first_exceeded_quota true sampleEnv sampleRequest (sampleWorldAt 5 100)
    { status := 429, body := .errorLimit "Too Many Requests" 5 } (by decide) rfl

/-- C5. A request without an `x-api-key` header, with an empty one, or with a
key that no record with `active = true` carries (the lookup itself
succeeding) is answered 401: `next()` is not called and the status is neither
200 nor 429. -/
theorem missing_or_inactive_key_is_401 (io : Bool) (env : Env) (req : Request) (w : World)
    (hcred : req.apiKey = none ∨ req.apiKey = some "" ∨
      ∃ k, req.apiKey = some k ∧ env.faults.findActiveKey = false ∧
        ∀ d ∈ w.apiKeys, ¬ (d.key = k ∧ d.active = true)) :
    ((rateLimiter io env req w).1 =
          .responded { status := 401, body := .error "API key is required" }
        ∨ (rateLimiter io env req w).1 =
          .responded { status := 401, body := .error "Invalid or inactive API key" })
      ∧ (∀ usage keyData, (rateLimiter io env req w).1 ≠ .next usage keyData)
      ∧ (rateLimiter io env req w).1.status = 401
      ∧ (rateLimiter io env req w).1.status ≠ 200
      ∧ (rateLimiter io env req w).1.status ≠ 429 := by
  have key : (rateLimiter io env req w).1 =
          .responded { status := 401, body := .error "API key is required" }
        ∨ (rateLimiter io env req w).1 =
          .responded { status := 401, body := .error "Invalid or inactive API key" } := by
    rcases hcred with h | h | ⟨k, h, hf, hk⟩
    · exact Or.inl (by simp only [rateLimiter, h])
    · exact Or.inl (by simp only [rateLimiter, h, if_true])
    · by_cases hne : k = ""
      · exact Or.inl (by simp only [rateLimiter, h, hne, if_true])
      · have hnone := (findActiveKey_eq_none w.apiKeys k).mpr hk
        exact Or.inr
          (by simp only [rateLimiter, h, hne, hf, hnone, if_false, Bool.false_eq_true])
  refine ⟨key, ?_, ?_, ?_, ?_⟩ <;> rcases key with hb | hb <;> simp [hb, Outcome.status]

theorem missing_or_inactive_key_is_401_witness :
    (rateLimiter true sampleEnv { apiKey := some "ak_retired", path := "/" } sampleWorld).1.status
      = 401 :=
  (missing_or_inactive_key_is_401 true sampleEnv { apiKey := some "ak_retired", path := "/" }
    sampleWorld (Or.inr (Or.inr ⟨"ak_retired", rfl, rfl, by decide⟩))).2.2.1

/-- C6. A request whose credential is missing, empty, unknown or inactive
leaves the world as it was: no usage window is created or incremented, no
access log is appended and no `'usage.update'` event is emitted. -/
theorem rejected_credential_changes_nothing (io : Bool) (env : Env) (req : Request)
    (w : World)
    (hcred : req.apiKey = none ∨ req.apiKey = some "" ∨
      ∃ k, req.apiKey = some k ∧ ∀ d ∈ w.apiKeys, ¬ (d.key = k ∧ d.active = true)) :
    (rateLimiter io env req w).2 = w := by
  rcases hcred with h | h | ⟨k, h, hk⟩
  · simp only [rateLimiter, h]
  · simp only [rateLimiter, h, if_true]
  · have hnone := (findActiveKey_eq_none w.apiKeys k).mpr hk
    simp only [rateLimiter, h, hnone]
    split_ifs <;> rfl

theorem rejected_credential_changes_nothing_witness :
    (rateLimiter true sampleEnv { apiKey := some "ak_retired", path := "/" }
      (sampleWorldAt 3 7)).2 = sampleWorldAt 3 7 :=
  rejected_credential_changes_nothing true sampleEnv { apiKey := some "ak_retired", path := "/" }
    (sampleWorldAt 3 7) (Or.inr (Or.inr ⟨"ak_retired", rfl, by decide⟩))

/-- C7. A request carrying key `k` gets the same response (status 401, same
body) from a world whose key collection has no record for `k` and from a
world where `k` exists with `active = false`, the lookup succeeding in both. -/
theorem inactive_indistinguishable_from_unknown (k : String) (io₁ io₂ : Bool) (env₁ env₂ : Env)
    (req₁ req₂ : Request) (w₁ w₂ : World)
    (hreq₁ : req₁.apiKey = some k) (hreq₂ : req₂.apiKey = some k)
    (hf₁ : env₁.faults.findActiveKey = false) (hf₂ : env₂.faults.findActiveKey = false)
    (hunknown : ∀ d ∈ w₁.apiKeys, d.key ≠ k)
    (_hexists : ∃ d ∈ w₂.apiKeys, d.key = k)
    (hinactive : ∀ d ∈ w₂.apiKeys, d.key = k → d.active = false) :
    (rateLimiter io₁ env₁ req₁ w₁).1 = (rateLimiter io₂ env₂ req₂ w₂).1
      ∧ (rateLimiter io₁ env₁ req₁ w₁).1.status = 401
      ∧ (rateLimiter io₂ env₂ req₂ w₂).1.status = 401 := by
  have h₁ : findActiveKey w₁.apiKeys k = none :=
    (findActiveKey_eq_none w₁.apiKeys k).mpr (fun d hd h => hunknown d hd h.1)
  have h₂ : findActiveKey w₂.apiKeys k = none :=
    (findActiveKey_eq_none w₂.apiKeys k).mpr (fun d hd h => by
      have := hinactive d hd h.1
      rw [h.2] at this
      exact Bool.noConfusion this)
  by_cases hne : k = ""
  · simp [rateLimiter, hreq₁, hreq₂, hne, Outcome.status]
  · simp [rateLimiter, hreq₁, hreq₂, hne, hf₁, hf₂, h₁, h₂, Outcome.status]

theorem inactive_indistinguishable_from_unknown_witness :
    (rateLimiter true sampleEnv { apiKey := some "ak_retired", path := "/" }
        { sampleWorld with apiKeys := [limitedKey] }).1
      = (rateLimiter true sampleEnv { apiKey := some "ak_retired", path := "/" } sampleWorld).1 :=
  (inactive_indistinguishable_from_unknown "ak_retired" true true sampleEnv sampleEnv
    { apiKey := some "ak_retired", path := "/" } { apiKey := some "ak_retired", path := "/" }
    { sampleWorld with apiKeys := [limitedKey] } sampleWorld rfl rfl rfl rfl
    (by decide) (by decide) (by decide)).1

/-! ## Runs of requests -/

/-- What a request with an active key does when every store operation
succeeds: the outcome, and the world afterwards field by field. -/
theorem rateLimiter_served (io : Bool) (env : Env) (req : Request) (w : World)
    (apiKey : String) (keyData : ApiKey)
    (hkey : req.apiKey = some apiKey) (hne : apiKey ≠ "")
    (hactive : findActiveKey w.apiKeys apiKey = some keyData)
    (hok : env.faults = {})
    (mc dc : Nat)
    (hmc : countOf apiKey .minute (getMinuteWindowId env.now) w.usageWindows + 1 = mc)
    (hdc : countOf apiKey .day (getDayWindowId env.now) w.usageWindows + 1 = dc) :
    (rateLimiter io env req w).1 =
        (if (mc : Int) > keyData.perMinute then
          .responded { status := 429, body := .errorLimit "Too Many Requests" keyData.perMinute }
        else if (dc : Int) > keyData.perDay then
          .responded { status := 429, body := .errorLimit "Daily quota exceeded" keyData.perDay }
        else .next { minute := mc, day := dc } keyData)
      ∧ (rateLimiter io env req w).2.apiKeys = w.apiKeys
      ∧ (rateLimiter io env req w).2.usageWindows =
          (incrementAndGet apiKey .day (getDayWindowId env.now) (dayExpiry env.now)
            (incrementAndGet apiKey .minute (getMinuteWindowId env.now) (minuteExpiry env.now)
              w.usageWindows).2).2
      ∧ (rateLimiter io env req w).2.accessLogs = w.accessLogs ++
          [{ key := apiKey, endpoint := req.path,
             status := if (mc : Int) > keyData.perMinute ∨ (dc : Int) > keyData.perDay
                       then 429 else 200,
             timestamp := env.logTime, minuteCount := mc, dayCount := dc }] := by
  have hf1 : env.faults.findActiveKey = false := by rw [hok]
  have hf2 : env.faults.minuteIncrement = false := by rw [hok]
  have hf3 : env.faults.dayIncrement = false := by rw [hok]
  have hf4 : env.faults.accessLog = false := by rw [hok]
  rw [rateLimiter_active io env req w apiKey keyData hkey hne hactive hf1 hf2 hf3, hmc, hdc]
  unfold checkRateLimits
  simp only [hf4, if_false, Bool.false_eq_true, AccessLog.create]
  by_cases h1 : (mc : Int) > keyData.perMinute
  · simp [h1]
  · by_cases h2 : (dc : Int) > keyData.perDay
    · simp [h1, h2]
    · cases io <;> simp [h1, h2]

/-- A run of requests of one key in one minute window, from a world where
the minute window already counts `c` requests and the day window of each
arrival `a` counts `dbase a + c`. -/
theorem run_one_minute_window (k : String) (kd : ApiKey) (wid : String)
    (dbase : Arrival → Nat) (hk : k ≠ "") :
    ∀ (arrivals : List Arrival) (w : World) (c : Nat),
      findActiveKey w.apiKeys k = some kd →
      countOf k .minute wid w.usageWindows = c →
      (∀ a ∈ arrivals, a.req.apiKey = some k ∧ a.env.faults = {} ∧
        getMinuteWindowId a.env.now = wid ∧
        countOf k .day (getDayWindowId a.env.now) w.usageWindows = dbase a + c ∧
        ((dbase a + c + arrivals.length : Nat) : Int) ≤ kd.perDay) →
      (run (arrivals.map .request) w).1 =
          List.zipWith (fun n a =>
              if ((n : Nat) : Int) ≤ kd.perMinute then
                Outcome.next { minute := n, day := dbase a + n } kd
              else
                .responded { status := 429,
                             body := .errorLimit "Too Many Requests" kd.perMinute })
            (List.range' (c + 1) arrivals.length) arrivals
        ∧ (run (arrivals.map .request) w).2.accessLogs = w.accessLogs ++
          List.zipWith (fun n a =>
              { key := k, endpoint := a.req.path,
                status := if ((n : Nat) : Int) ≤ kd.perMinute then 200 else 429,
                timestamp := a.env.logTime, minuteCount := n, dayCount := dbase a + n })
            (List.range' (c + 1) arrivals.length) arrivals := by
  intro arrivals
  induction arrivals with
  | nil =>
    intro w c _ _ _
    simp [run]
  | cons a rest ih =>
    intro w c hactive hc hall
    obtain ⟨hkey, hok, hwin, hday, hbound⟩ := hall a (List.mem_cons_self a rest)
    have hmc : countOf k .minute (getMinuteWindowId a.env.now) w.usageWindows + 1 = c + 1 := by
      rw [hwin, hc]
    have hdc : countOf k .day (getDayWindowId a.env.now) w.usageWindows + 1
        = dbase a + (c + 1) := by
      rw [hday]; omega
    obtain ⟨hout, hkeys, hwins, hlogs⟩ :=
      rateLimiter_served a.io a.env a.req w k kd hkey hk hactive hok _ _ hmc hdc
    have hdle : ¬ (((dbase a + (c + 1) : Nat) : Int) > kd.perDay) := by
      simp only [List.length_cons] at hbound
      push_cast at hbound ⊢
      omega
    simp only [hdle, if_false, or_false] at hout hlogs
    have hactive' : findActiveKey (rateLimiter a.io a.env a.req w).2.apiKeys k = some kd := by
      rw [hkeys]; exact hactive
    have hc' : countOf k .minute wid (rateLimiter a.io a.env a.req w).2.usageWindows = c + 1 := by
      rw [hwins, countOf_incrementAndGet_other _ _ _ _ _ _ _ _ (by simp), hwin,
        countOf_incrementAndGet_self, hc]
    have hall' : ∀ b ∈ rest, b.req.apiKey = some k ∧ b.env.faults = {} ∧
        getMinuteWindowId b.env.now = wid ∧
        countOf k .day (getDayWindowId b.env.now)
          (rateLimiter a.io a.env a.req w).2.usageWindows = dbase b + (c + 1) ∧
        ((dbase b + (c + 1) + rest.length : Nat) : Int) ≤ kd.perDay := by
      intro b hb
      obtain ⟨hkey', hok', hwin', hday', hbound'⟩ := hall b (List.mem_cons_of_mem a hb)
      refine ⟨hkey', hok', hwin', ?_, ?_⟩
      · have hsame : getDayWindowId a.env.now = getDayWindowId b.env.now :=
          getDayWindowId_eq_of_minute _ _ (hwin.trans hwin'.symm)
        rw [hwins, hsame, countOf_incrementAndGet_self,
          countOf_incrementAndGet_other _ _ _ _ _ _ _ _ (by simp), hday']
        omega
      · simp only [List.length_cons] at hbound'
        have : dbase b + (c + 1) + rest.length = dbase b + c + (rest.length + 1) := by omega
        rw [this]; exact hbound'
    obtain ⟨ih1, ih2⟩ := ih (rateLimiter a.io a.env a.req w).2 (c + 1) hactive' hc' hall'
    constructor
    · simp only [List.map_cons, run, List.length_cons, List.range'_succ, List.zipWith_cons_cons]
      rw [ih1, hout]
      congr 1
      by_cases h : ((c + 1 : Nat) : Int) ≤ kd.perMinute
      · have h' : ¬ (((c + 1 : Nat) : Int) > kd.perMinute) := by omega
        simp only [h, h', if_true, if_false]
      · have h' : ((c + 1 : Nat) : Int) > kd.perMinute := by omega
        simp only [h, h', if_true, if_false]
    · simp only [List.map_cons, run, List.length_cons, List.range'_succ, List.zipWith_cons_cons]
      rw [ih2, hlogs, List.append_assoc]
      congr 1
      simp only [List.singleton_append]
      congr 1
      by_cases h : ((c + 1 : Nat) : Int) ≤ kd.perMinute
      · have h' : ¬ (((c + 1 : Nat) : Int) > kd.perMinute) := by omega
        simp only [h, h', if_true, if_false]
      · have h' : ((c + 1 : Nat) : Int) > kd.perMinute := by omega
        simp only [h, h', if_true, if_false]

theorem zipWith_fst_eq_map {α β γ : Type} (g : α → γ) :
    ∀ (l₁ : List α) (l₂ : List β), l₁.length = l₂.length →
      List.zipWith (fun a _ => g a) l₁ l₂ = l₁.map g
  | [], [], _ => rfl
  | [], _ :: _, h => by simp at h
  | _ :: _, [], h => by simp at h
  | a :: l₁, _ :: l₂, h => by
    simp only [List.zipWith_cons_cons, List.map_cons]
    rw [zipWith_fst_eq_map g l₁ l₂ (by simpa using h)]

/-- C1. Requests of one active key, all in one minute window whose counter
starts absent, served one after another with every store operation
succeeding and the day count staying within `perDay`: the n-th request
(n = 1, 2, ...) sees minute count n; while `n <= perMinute` it is allowed
(`next()` with `req.usage.minute = n`, access log with status 200 and
`minuteCount = n`); every later one, the `(perMinute + 1)`-th first, is
answered 429 `'Too Many Requests'` with `limit = perMinute` and logged with
status 429 and `minuteCount = n`. -/
theorem requests_in_one_minute_window (w : World) (k : String) (kd : ApiKey) (wid : String)
    (arrivals : List Arrival) (hk : k ≠ "")
    (hactive : findActiveKey w.apiKeys k = some kd)
    (hfresh : findOneWindow k .minute wid w.usageWindows = none)
    (hreq : ∀ a ∈ arrivals, a.req.apiKey = some k ∧ a.env.faults = {} ∧
      getMinuteWindowId a.env.now = wid)
    (hday : ∀ a ∈ arrivals,
      ((countOf k .day (getDayWindowId a.env.now) w.usageWindows + arrivals.length : Nat) : Int)
        ≤ kd.perDay) :
    (run (arrivals.map .request) w).1 =
        List.zipWith (fun n a =>
            if ((n : Nat) : Int) ≤ kd.perMinute then
              Outcome.next
                { minute := n,
                  day := countOf k .day (getDayWindowId a.env.now) w.usageWindows + n } kd
            else
              .responded { status := 429,
                           body := .errorLimit "Too Many Requests" kd.perMinute })
          (List.range' 1 arrivals.length) arrivals
      ∧ (run (arrivals.map .request) w).2.accessLogs = w.accessLogs ++
        List.zipWith (fun n a =>
            { key := k, endpoint := a.req.path,
              status := if ((n : Nat) : Int) ≤ kd.perMinute then 200 else 429,
              timestamp := a.env.logTime, minuteCount := n,
              dayCount := countOf k .day (getDayWindowId a.env.now) w.usageWindows + n })
          (List.range' 1 arrivals.length) arrivals
      ∧ (run (arrivals.map .request) w).1.map Outcome.status =
        (List.range' 1 arrivals.length).map
          (fun n => if ((n : Nat) : Int) ≤ kd.perMinute then 200 else 429) := by
  have hc : countOf k .minute wid w.usageWindows = 0 := by simp [countOf, hfresh]
  have hall : ∀ a ∈ arrivals, a.req.apiKey = some k ∧ a.env.faults = {} ∧
      getMinuteWindowId a.env.now = wid ∧
      countOf k .day (getDayWindowId a.env.now) w.usageWindows =
        (fun a : Arrival => countOf k .day (getDayWindowId a.env.now) w.usageWindows) a + 0 ∧
      (((fun a : Arrival => countOf k .day (getDayWindowId a.env.now) w.usageWindows) a + 0
        + arrivals.length : Nat) : Int) ≤ kd.perDay := by
    intro a ha
    obtain ⟨h1, h2, h3⟩ := hreq a ha
    exact ⟨h1, h2, h3, rfl, by simpa using hday a ha⟩
  obtain ⟨h1, h2⟩ := run_one_minute_window k kd wid
    (fun a => countOf k .day (getDayWindowId a.env.now) w.usageWindows) hk arrivals w 0
    hactive hc hall
  simp only [Nat.zero_add] at h1 h2
  refine ⟨h1, h2, ?_⟩
  rw [h1, List.map_zipWith, ← zipWith_fst_eq_map _ (List.range' 1 arrivals.length) arrivals
    (by simp)]
  congr 1
  funext n a
  by_cases h : ((n : Nat) : Int) ≤ kd.perMinute <;> simp [h, Outcome.status]

theorem requests_in_one_minute_window_witness :
    (run (sampleArrivals.map .request) sampleWorld).1.map Outcome.status
        = [200, 200, 200, 200, 200, 429, 429]
      ∧ (run (sampleArrivals.map .request) sampleWorld).2.accessLogs.map (·.minuteCount)
        = [1, 2, 3, 4, 5, 6, 7]
      ∧ (run (sampleArrivals.map .request) sampleWorld).1.drop 5
        = [.responded { status := 429, body := .errorLimit "Too Many Requests" 5 },
           .responded { status := 429, body := .errorLimit "Too Many Requests" 5 }] := by
  have h := requests_in_one_minute_window sampleWorld "ak_limited" limitedKey "20240229-2359"
    sampleArrivals (by decide) (by decide) (by decide) (by decide) (by decide)
  refine ⟨?_, ?_, ?_⟩
  · rw [h.2.2]; decide
  · rw [h.2.1]; decide
  · rw [h.1]; decide

theorem checkRateLimits_world (io : Bool) (env : Env) (req : Request) (apiKey : String)
    (keyData : ApiKey) (minuteCount dayCount : Nat) (w : World) :
    (checkRateLimits io env req apiKey keyData minuteCount dayCount w).2.apiKeys = w.apiKeys
      ∧ (checkRateLimits io env req apiKey keyData minuteCount dayCount w).2.usageWindows
          = w.usageWindows := by
  unfold checkRateLimits
  cases io <;> split_ifs <;> simp [AccessLog.create]

/-- The middleware never writes to the key collection. -/
theorem rateLimiter_apiKeys (io : Bool) (env : Env) (req : Request) (w : World) :
    (rateLimiter io env req w).2.apiKeys = w.apiKeys := by
  rcases env with ⟨now, logTime, ⟨f1, f2, f3, f4⟩⟩
  rcases req with ⟨_ | apiKey, path⟩
  · rfl
  · by_cases hne : apiKey = ""
    · simp [rateLimiter, hne]
    · cases hfind : findActiveKey w.apiKeys apiKey with
      | none => cases f1 <;> simp [rateLimiter, hne, hfind]
      | some kd =>
        cases f1 <;> cases f2 <;> cases f3 <;>
          simp [rateLimiter, hne, hfind, checkRateLimits_world]

theorem countOf_le_incrementAndGet (key key' : String) (type type' : WindowType)
    (windowId windowId' : String) (expiry : Date) (coll : List UsageWindow) :
    countOf key' type' windowId' coll ≤
      countOf key' type' windowId' (incrementAndGet key type windowId expiry coll).2 := by
  by_cases h : key' = key ∧ type' = type ∧ windowId' = windowId
  · obtain ⟨h1, h2, h3⟩ := h
    subst h1 h2 h3
    rw [countOf_incrementAndGet_self]
    omega
  · rw [countOf_incrementAndGet_other _ _ _ _ _ _ _ _ h]

/-- No request lowers the count of any composite key. -/
theorem countOf_le_rateLimiter (io : Bool) (env : Env) (req : Request) (w : World)
    (k : String) (type : WindowType) (windowId : String) :
    countOf k type windowId w.usageWindows ≤
      countOf k type windowId (rateLimiter io env req w).2.usageWindows := by
  rcases env with ⟨now, logTime, ⟨f1, f2, f3, f4⟩⟩
  rcases req with ⟨_ | apiKey, path⟩
  · exact le_rfl
  · by_cases hne : apiKey = ""
    · simp [rateLimiter, hne]
    · cases hfind : findActiveKey w.apiKeys apiKey with
      | none => cases f1 <;> simp [rateLimiter, hne, hfind]
      | some kd =>
        have h1 := countOf_le_incrementAndGet apiKey k .minute type (getMinuteWindowId now)
          windowId (minuteExpiry now) w.usageWindows
        have h2 := countOf_le_incrementAndGet apiKey k .day type (getDayWindowId now)
          windowId (dayExpiry now) w.usageWindows
        have h3 := countOf_le_incrementAndGet apiKey k .day type (getDayWindowId now)
          windowId (dayExpiry now)
          (incrementAndGet apiKey .minute (getMinuteWindowId now) (minuteExpiry now)
            w.usageWindows).2
        cases f1 <;> cases f2 <;> cases f3 <;>
          simp only [rateLimiter, hne, hfind, checkRateLimits_world, if_true, if_false,
            Bool.false_eq_true, le_refl] <;>
          first
            | exact le_rfl
            | exact h1
            | exact h2
            | exact le_trans h1 h3

/-- An allowed request: its key is active, `req.usage` holds the two
incremented counts, both are within the key's limits, and both windows were
incremented. -/
theorem rateLimiter_next (io : Bool) (env : Env) (req : Request) (w : World)
    (u : Usage) (kd : ApiKey) (h : (rateLimiter io env req w).1 = .next u kd) :
    ∃ apiKey, req.apiKey = some apiKey ∧ findActiveKey w.apiKeys apiKey = some kd ∧
      u.minute = countOf apiKey .minute (getMinuteWindowId env.now) w.usageWindows + 1 ∧
      u.day = countOf apiKey .day (getDayWindowId env.now) w.usageWindows + 1 ∧
      (u.minute : Int) ≤ kd.perMinute ∧ (u.day : Int) ≤ kd.perDay ∧
      (rateLimiter io env req w).2.usageWindows =
        (incrementAndGet apiKey .day (getDayWindowId env.now) (dayExpiry env.now)
          (incrementAndGet apiKey .minute (getMinuteWindowId env.now) (minuteExpiry env.now)
            w.usageWindows).2).2 := by
  cases hk : req.apiKey with
  | none => simp [rateLimiter, hk] at h
  | some apiKey =>
    by_cases hne : apiKey = ""
    · simp [rateLimiter, hk, hne] at h
    by_cases hf1 : env.faults.findActiveKey = true
    · simp [rateLimiter, hk, hne, hf1, internalServerError] at h
    simp only [Bool.not_eq_true] at hf1
    cases ha : findActiveKey w.apiKeys apiKey with
    | none => simp [rateLimiter, hk, hne, hf1, ha] at h
    | some keyData =>
      by_cases hf2 : env.faults.minuteIncrement = true
      · by_cases hf3 : env.faults.dayIncrement = true <;>
          simp [rateLimiter, hk, hne, hf1, hf2, hf3, ha, internalServerError] at h
      simp only [Bool.not_eq_true] at hf2
      by_cases hf3 : env.faults.dayIncrement = true
      · simp [rateLimiter, hk, hne, hf1, hf2, hf3, ha, internalServerError] at h
      simp only [Bool.not_eq_true] at hf3
      have hact := rateLimiter_active io env req w apiKey keyData hk hne ha hf1 hf2 hf3
      rw [hact] at h ⊢
      refine ⟨apiKey, rfl, ?_⟩
      rw [(checkRateLimits_world _ _ _ _ _ _ _ _).2]
      by_cases hlog : env.faults.accessLog = true
      · unfold checkRateLimits at h
        simp only [hlog, if_true, internalServerError] at h
        split_ifs at h
      simp only [Bool.not_eq_true] at hlog
      rw [checkRateLimits_fst _ _ _ _ _ _ _ _ hlog] at h
      split_ifs at h with h1 h2
      cases h
      exact ⟨ha, rfl, rfl, not_lt.mp h1, not_lt.mp h2, rfl⟩

/-- An allowed request of key `k` raises the count of its window, of either
type, by one, to a value within the limit of the key record it found. -/
theorem rateLimiter_next_window (io : Bool) (env : Env) (req : Request) (w : World)
    (k : String) (type : WindowType) (hkey : req.apiKey = some k)
    (hallowed : (rateLimiter io env req w).1.allowed = true) :
    ∃ kd, findActiveKey w.apiKeys k = some kd ∧
      countOf k type (windowIdOf type env.now) (rateLimiter io env req w).2.usageWindows =
        countOf k type (windowIdOf type env.now) w.usageWindows + 1 ∧
      ((countOf k type (windowIdOf type env.now) w.usageWindows + 1 : Nat) : Int)
        ≤ limitOf type kd := by
  cases hout : (rateLimiter io env req w).1 with
  | responded res => rw [hout] at hallowed; simp [Outcome.allowed] at hallowed
  | next u kd =>
    obtain ⟨apiKey, hk', hfind, hm, hd, hml, hdl, hwins⟩ := rateLimiter_next io env req w u kd hout
    rw [hkey] at hk'
    cases hk'
    refine ⟨kd, hfind, ?_, ?_⟩
    · rw [hwins]
      cases type
      · simp only [windowIdOf]
        rw [countOf_incrementAndGet_other _ _ _ _ _ _ _ _ (by simp), countOf_incrementAndGet_self]
      · simp only [windowIdOf]
        rw [countOf_incrementAndGet_self, countOf_incrementAndGet_other _ _ _ _ _ _ _ _ (by simp)]
    · cases type
      · simp only [windowIdOf, limitOf]
        rw [← hm]; exact hml
      · simp only [windowIdOf, limitOf]
        rw [← hd]; exact hdl

/-- Every request step of a run has its outcome: `served` pairs them all. -/
theorem run_length : ∀ (steps : List Step) (w : World),
    (run steps w).1.length = (requestsOf steps).length
  | [], _ => rfl
  | .request a :: rest, w => by
    simp only [run, requestsOf, List.length_cons]
    rw [run_length rest]
  | .directory apiKeys :: rest, w => by
    simp only [run, requestsOf]
    rw [run_length rest]

theorem served_request (a : Arrival) (rest : List Step) (w : World) :
    served (.request a :: rest) w =
      (a, (rateLimiter a.io a.env a.req w).1) :: served rest (rateLimiter a.io a.env a.req w).2 :=
  rfl

theorem served_directory (apiKeys : List ApiKey) (rest : List Step) (w : World) :
    served (.directory apiKeys :: rest) w = served rest { w with apiKeys := apiKeys } :=
  rfl

/-- The invariant behind the quota: in any run, the allowed requests of key
`k` in one window, added to the count the window starts with, stay within the
limit, or within the starting count when that already exceeds the limit. -/
theorem allowed_add_count_le (k : String) (type : WindowType) (windowId : String) (L : Int) :
    ∀ (steps : List Step) (w : World),
      (∀ kd, findActiveKey w.apiKeys k = some kd → limitOf type kd = L) →
      (∀ apiKeys, Step.directory apiKeys ∈ steps →
        ∀ kd, findActiveKey apiKeys k = some kd → limitOf type kd = L) →
      ((allowedInWindow k type windowId (served steps w)
          + countOf k type windowId w.usageWindows : Nat) : Int)
        ≤ max L (countOf k type windowId w.usageWindows) := by
  intro steps
  induction steps with
  | nil =>
    intro w _ _
    simp [served, requestsOf, run, allowedInWindow]
  | cons s rest ih =>
    intro w hw hdir
    have hdir' : ∀ apiKeys, Step.directory apiKeys ∈ rest →
        ∀ kd, findActiveKey apiKeys k = some kd → limitOf type kd = L :=
      fun apiKeys h => hdir apiKeys (List.mem_cons_of_mem s h)
    cases s with
    | directory apiKeys =>
      rw [served_directory]
      exact ih { w with apiKeys := apiKeys } (hdir apiKeys (List.mem_cons_self _ _)) hdir'
    | request a =>
      rw [served_request]
      have hw' : ∀ kd, findActiveKey (rateLimiter a.io a.env a.req w).2.apiKeys k = some kd →
          limitOf type kd = L := by
        rw [rateLimiter_apiKeys]; exact hw
      have hrec := ih (rateLimiter a.io a.env a.req w).2 hw' hdir'
      have hmono := countOf_le_rateLimiter a.io a.env a.req w k type windowId
      simp only [allowedInWindow, List.countP_cons] at hrec ⊢
      by_cases hp : (a.req.apiKey == some k && windowIdOf type a.env.now == windowId
          && (rateLimiter a.io a.env a.req w).1.allowed) = true
      · simp only [hp, if_true]
        simp only [Bool.and_eq_true, beq_iff_eq] at hp
        obtain ⟨⟨hkey, hwin⟩, hallowed⟩ := hp
        obtain ⟨kd, hfind, hcount, hle⟩ :=
          rateLimiter_next_window a.io a.env a.req w k type hkey hallowed
        rw [hwin] at hcount hle
        rw [hw kd hfind] at hle
        rw [hcount] at hrec
        push_cast at hrec hle ⊢
        omega
      · simp only [hp, if_false, Bool.false_eq_true]
        push_cast at hrec ⊢
        omega

/-- C2. In every run of the server (requests of any keys, with or without
failing store operations, interleaved with rewrites of the key collection)
in which the active record of key `k` always carries `perMinute = M` and
`perDay = D`, the requests of `k` allowed within one minute window number at
most `M` and those allowed within one day window at most `D`.  This holds
from every starting world, the empty counter store included. -/
theorem allowed_within_limits (steps : List Step) (w : World) (k : String) (M D : Int)
    (minuteWindow dayWindow : String) (hM : 0 ≤ M) (hD : 0 ≤ D)
    (hw : ∀ kd, findActiveKey w.apiKeys k = some kd → kd.perMinute = M ∧ kd.perDay = D)
    (hdir : ∀ apiKeys, Step.directory apiKeys ∈ steps →
      ∀ kd, findActiveKey apiKeys k = some kd → kd.perMinute = M ∧ kd.perDay = D) :
    (allowedInWindow k .minute minuteWindow (served steps w) : Int) ≤ M
      ∧ (allowedInWindow k .day dayWindow (served steps w) : Int) ≤ D := by
  have h1 := allowed_add_count_le k .minute minuteWindow M steps w
    (fun kd h => (hw kd h).1) (fun apiKeys h kd h' => (hdir apiKeys h kd h').1)
  have h2 := allowed_add_count_le k .day dayWindow D steps w
    (fun kd h => (hw kd h).2) (fun apiKeys h kd h' => (hdir apiKeys h kd h').2)
  push_cast at h1 h2
  constructor <;> omega

theorem allowed_within_limits_witness :
    (allowedInWindow "ak_limited" .minute "20240229-2359"
        (served (sampleArrivals.map .request) sampleWorld) : Int) ≤ 5
      ∧ (allowedInWindow "ak_limited" .day "20240229"
        (served (sampleArrivals.map .request) sampleWorld) : Int) ≤ 100 :=
  allowed_within_limits (sampleArrivals.map .request) sampleWorld "ak_limited" 5 100
    "20240229-2359" "20240229" (by decide) (by decide)
    (fun kd h => by
      have h' : findActiveKey sampleWorld.apiKeys "ak_limited" = some limitedKey := by decide
      rw [h'] at h
      cases h
      exact ⟨rfl, rfl⟩)
    (fun apiKeys h => by simp [sampleArrivals] at h)

/-! ## Concurrent increments -/

/-- Calls that all address one composite key, executed one after another from
a store where it counts `c`, return `c + 1, c + 2, ...` and leave the count at
`c` plus the number of calls. -/
theorem incrementAll_same_key (key : String) (type : WindowType) (windowId : String) :
    ∀ (calls : List IncrementCall) (coll : List UsageWindow),
      (∀ c ∈ calls, c.key = key ∧ c.type = type ∧ c.windowId = windowId) →
      (incrementAll calls coll).1 =
          List.range' (countOf key type windowId coll + 1) calls.length
        ∧ countOf key type windowId (incrementAll calls coll).2 =
          countOf key type windowId coll + calls.length := by
  intro calls
  induction calls with
  | nil => intro coll _; simp [incrementAll]
  | cons c rest ih =>
    intro coll hall
    obtain ⟨h1, h2, h3⟩ := hall c (List.mem_cons_self c rest)
    obtain ⟨ih1, ih2⟩ := ih (incrementAndGet c.key c.type c.windowId c.expiry coll).2
      (fun c' hc' => hall c' (List.mem_cons_of_mem c hc'))
    subst h1 h2 h3
    rw [countOf_incrementAndGet_self] at ih1 ih2
    simp only [incrementAll, List.length_cons, List.range'_succ, incrementAndGet_fst]
    refine ⟨by rw [ih1], ?_⟩
    rw [ih2]; omega

/-- C10. `N >= 1` calls of `incrementAndGet` on one composite key that has no
document, each call being one atomic `findOneAndUpdate` of the store: in
whatever order the store executes them (`order` is any permutation of the
calls), the returned counts are `1, 2, ..., N` in execution order, so they
form the set `{1, ..., N}` with no duplicate and no gap, and the stored count
ends at `N`. -/
theorem concurrent_increments_gap_free (key : String) (type : WindowType) (windowId : String)
    (calls order : List IncrementCall) (coll : List UsageWindow)
    (hN : 1 ≤ calls.length)
    (hcalls : ∀ c ∈ calls, c.key = key ∧ c.type = type ∧ c.windowId = windowId)
    (hfresh : findOneWindow key type windowId coll = none)
    (horder : order.Perm calls) :
    (incrementAll order coll).1 = List.range' 1 calls.length
      ∧ (incrementAll order coll).1.Nodup
      ∧ (∀ n, n ∈ (incrementAll order coll).1 ↔ 1 ≤ n ∧ n ≤ calls.length)
      ∧ (findOneWindow key type windowId (incrementAll order coll).2).map (·.count) =
          some calls.length := by
  have hc : countOf key type windowId coll = 0 := by simp [countOf, hfresh]
  obtain ⟨h1, h2⟩ := incrementAll_same_key key type windowId order coll
    (fun c hc' => hcalls c (horder.subset hc'))
  rw [hc, horder.length_eq] at h1 h2
  simp only [Nat.zero_add] at h1 h2
  refine ⟨h1, ?_, ?_, ?_⟩
  · rw [h1]; exact List.nodup_range' 1 calls.length
  · intro n
    rw [h1, List.mem_range'_1]
    omega
  · cases hfind : findOneWindow key type windowId (incrementAll order coll).2 with
    | none =>
      simp only [countOf, hfind, Option.map_none', Option.getD_none] at h2
      omega
    | some d =>
      simp only [countOf, hfind, Option.map_some', Option.getD_some] at h2
      simp [h2]

theorem concurrent_increments_gap_free_witness :
    (incrementAll
        [⟨"ak_limited", .minute, "20240229-2359", 30⟩, ⟨"ak_limited", .minute, "20240229-2359", 10⟩,
         ⟨"ak_limited", .minute, "20240229-2359", 20⟩]
        (sampleWorldAt 0 0).usageWindows.tail).1 = [1, 2, 3] :=
  (concurrent_increments_gap_free "ak_limited" .minute "20240229-2359"
    [⟨"ak_limited", .minute, "20240229-2359", 10⟩, ⟨"ak_limited", .minute, "20240229-2359", 20⟩,
     ⟨"ak_limited", .minute, "20240229-2359", 30⟩]
    [⟨"ak_limited", .minute, "20240229-2359", 30⟩, ⟨"ak_limited", .minute, "20240229-2359", 10⟩,
     ⟨"ak_limited", .minute, "20240229-2359", 20⟩]
    (sampleWorldAt 0 0).usageWindows.tail (by decide) (by decide) (by decide) (by decide)).1

/-! ## The calendar -/

/-- `YearFromDay d` is the year whose days contain day number `d`. -/
theorem year_bracket (d : Int) :
    DayFromYear (YearFromDay d) ≤ d ∧ d < DayFromYear (YearFromDay d + 1) := by
  unfold YearFromDay
  simp only []
  generalize hy : 1970 + (400 * d) / 146097 = y
  have h1 : DayFromYear (y - 1) ≤ d := by unfold DayFromYear; omega
  have h2 : d < DayFromYear (y + 1 + 1) := by unfold DayFromYear; omega
  split_ifs with a b
  · exact ⟨a, h2⟩
  · exact ⟨b, not_le.mp a⟩
  · refine ⟨h1, ?_⟩
    have : y - 1 + 1 = y := by ring
    rw [this]; exact not_le.mp b

theorem DayFromYear_succ (y : Int) : DayFromYear (y + 1) = DayFromYear y + DaysInYear y := by
  unfold DayFromYear DaysInYear
  split_ifs <;> omega

theorem DaysInYear_cases (y : Int) : DaysInYear y = 365 ∨ DaysInYear y = 366 := by
  unfold DaysInYear
  split_ifs <;> simp

theorem InLeapYear_cases (t : Date) :
    (InLeapYear t = 0 ∧ DaysInYear (YearFromTime t) = 365)
      ∨ (InLeapYear t = 1 ∧ DaysInYear (YearFromTime t) = 366) := by
  unfold InLeapYear
  rcases DaysInYear_cases (YearFromTime t) with h | h <;> simp [h]

/-- The day within the year is a day of that year. -/
theorem DayWithinYear_range (t : Date) :
    0 ≤ DayWithinYear t ∧ DayWithinYear t < 365 + InLeapYear t := by
  have hb := year_bracket (Day t)
  have hs := DayFromYear_succ (YearFromDay (Day t))
  have hl := InLeapYear_cases t
  unfold DayWithinYear
  unfold YearFromTime at *
  omega

/-- `MonthFromTime` as a function of the day within the year and the leap
flag. -/
theorem MonthFromTime_cases (t : Date) (d l : Int) (hd : DayWithinYear t = d)
    (hl : InLeapYear t = l) :
    MonthFromTime t =
      if d < 31 then 0
      else if d < 59 + l then 1
      else if d < 90 + l then 2
      else if d < 120 + l then 3
      else if d < 151 + l then 4
      else if d < 181 + l then 5
      else if d < 212 + l then 6
      else if d < 243 + l then 7
      else if d < 273 + l then 8
      else if d < 304 + l then 9
      else if d < 334 + l then 10
      else 11 := by
  subst hd hl
  rfl

theorem MonthFromTime_range (t : Date) : 0 ≤ MonthFromTime t ∧ MonthFromTime t ≤ 11 := by
  have hm := MonthFromTime_cases t _ _ rfl rfl
  generalize DayWithinYear t = d at hm
  generalize InLeapYear t = l at hm
  omega

/-- The day of the month counts the days of the year past the months before. -/
theorem DateFromTime_eq (t : Date) :
    DateFromTime t =
      DayWithinYear t - daysBeforeMonth (YearFromTime t) (MonthFromTime t) + 1 := by
  have hl := InLeapYear_cases t
  have hr := MonthFromTime_range t
  have hm : MonthFromTime t = 0 ∨ MonthFromTime t = 1 ∨ MonthFromTime t = 2 ∨
      MonthFromTime t = 3 ∨ MonthFromTime t = 4 ∨ MonthFromTime t = 5 ∨
      MonthFromTime t = 6 ∨ MonthFromTime t = 7 ∨ MonthFromTime t = 8 ∨
      MonthFromTime t = 9 ∨ MonthFromTime t = 10 ∨ MonthFromTime t = 11 := by omega
  unfold DateFromTime daysBeforeMonth
  rcases hl with ⟨h0, h365⟩ | ⟨h1, h366⟩
  · rcases hm with h | h | h | h | h | h | h | h | h | h | h | h <;>
      simp only [h, h0, h365] <;> norm_num <;> omega
  · rcases hm with h | h | h | h | h | h | h | h | h | h | h | h <;>
      simp only [h, h1, h366] <;> norm_num <;> omega

theorem DateFromTime_range (t : Date) : 1 ≤ DateFromTime t ∧ DateFromTime t ≤ 31 := by
  have hd := DayWithinYear_range t
  have hl := InLeapYear_cases t
  have hm := MonthFromTime_cases t _ _ rfl rfl
  have hr := MonthFromTime_range t
  rw [DateFromTime_eq]
  unfold daysBeforeMonth
  generalize DayWithinYear t = d at *
  generalize MonthFromTime t = m at *
  obtain ⟨hlo, hhi⟩ := hr
  rcases hl with ⟨h0, h365⟩ | ⟨h1, h366⟩
  · rw [h0] at hm hd
    simp only [h365]
    interval_cases m <;> norm_num <;> omega
  · rw [h1] at hm hd
    simp only [h366]
    interval_cases m <;> norm_num <;> omega

/-- `MakeDay` on the year and month of `t` gives the day number of `t` moved
by the difference of the dates. -/
theorem MakeDay_of_time (t : Date) (date : Int) :
    MakeDay (YearFromTime t) (MonthFromTime t) date = Day t + (date - DateFromTime t) := by
  have hr := MonthFromTime_range t
  have h1 : MonthFromTime t / 12 = 0 := by omega
  have h2 : MonthFromTime t % 12 = MonthFromTime t := by omega
  unfold MakeDay
  simp only [h1, h2, add_zero]
  rw [DateFromTime_eq]
  unfold DayWithinYear
  ring

/-- The calendar components are functions of the day number. -/
theorem components_of_Day (a b : Date) (h : Day a = Day b) :
    YearFromTime a = YearFromTime b ∧ MonthFromTime a = MonthFromTime b ∧
      DateFromTime a = DateFromTime b := by
  have hy : YearFromTime a = YearFromTime b := by unfold YearFromTime; rw [h]
  have hd : DayWithinYear a = DayWithinYear b := by unfold DayWithinYear; rw [h, hy]
  have hl : InLeapYear a = InLeapYear b := by unfold InLeapYear; rw [hy]
  have hm : MonthFromTime a = MonthFromTime b := by
    rw [MonthFromTime_cases a _ _ rfl rfl, MonthFromTime_cases b _ _ rfl rfl, hd, hl]
  refine ⟨hy, hm, ?_⟩
  rw [DateFromTime_eq, DateFromTime_eq, hd, hy, hm]

/-- Year, month and day of the month determine the day number. -/
theorem Day_of_components (a b : Date) (hy : YearFromTime a = YearFromTime b)
    (hm : MonthFromTime a = MonthFromTime b) (hd : DateFromTime a = DateFromTime b) :
    Day a = Day b := by
  have ha := MakeDay_of_time a (DateFromTime a)
  have hb := MakeDay_of_time b (DateFromTime b)
  rw [hy, hm, hd, hb] at ha
  omega

/-! ## Decimal strings -/

theorem digitChar_value (k : Nat) (hk : k < 10) : (Nat.digitChar k).toNat - 48 = k := by
  interval_cases k <;> rfl

theorem decimalValue_toDigitsCore : ∀ (fuel n : Nat) (ds : List Char), n < fuel →
    (Nat.toDigitsCore 10 fuel n ds).foldl (fun acc c => 10 * acc + (c.toNat - 48)) 0 =
      ds.foldl (fun acc c => 10 * acc + (c.toNat - 48)) n := by
  intro fuel
  induction fuel with
  | zero => intro n ds h; omega
  | succ fuel ih =>
    intro n ds h
    have hd := digitChar_value (n % 10) (Nat.mod_lt _ (by decide))
    simp only [Nat.toDigitsCore]
    by_cases h0 : n / 10 = 0
    · simp only [h0, if_true, List.foldl_cons, hd]
      congr 1
      omega
    · simp only [h0, if_false]
      rw [ih (n / 10) _ (by omega)]
      simp only [List.foldl_cons, hd]
      congr 1
      omega

theorem decimalValue_repr (n : Nat) : decimalValue (Nat.repr n).data = n := by
  simp only [decimalValue, Nat.repr, Nat.toDigits, List.asString]
  rw [decimalValue_toDigitsCore (n + 1) n [] (by omega)]
  rfl

theorem numberToString_nonneg (m : Nat) : numberToString (Int.ofNat m) = Nat.repr m := rfl

theorem numberToString_neg (m : Nat) :
    numberToString (Int.negSucc m) = "-" ++ Nat.repr (m + 1) := rfl

theorem decimalValue_numberToString (n : Int) :
    decimalValue (numberToString n).data = n.natAbs := by
  cases n with
  | ofNat m => rw [numberToString_nonneg, decimalValue_repr]; rfl
  | negSucc m =>
    rw [numberToString_neg]
    have h := decimalValue_repr (m + 1)
    simp only [decimalValue, String.data_append] at h ⊢
    show List.foldl _ 0 ('-' :: (Nat.repr (m + 1)).data) = _
    simp only [List.foldl_cons]
    rw [show (10 * 0 + ('-'.toNat - 48)) = 0 from rfl, h]
    rfl

/-- `String(n)` determines the integer `n`. -/
theorem numberToString_injective (a b : Int) (h : numberToString a = numberToString b) :
    a = b := by
  have hv : a.natAbs = b.natAbs := by
    rw [← decimalValue_numberToString, ← decimalValue_numberToString, h]
  cases a with
  | ofNat m =>
    cases b with
    | ofNat k => simp only [Int.ofNat_eq_coe, Int.natAbs_ofNat] at hv; rw [hv]
    | negSucc k =>
      exfalso
      rw [numberToString_nonneg, numberToString_neg] at h
      have hm : m = k + 1 := by simpa [Int.natAbs] using hv
      rw [hm] at h
      have hl := congrArg String.length h
      simp only [String.length_append] at hl
      have : ("-" : String).length = 1 := rfl
      omega
  | negSucc m =>
    cases b with
    | ofNat k =>
      exfalso
      rw [numberToString_nonneg, numberToString_neg] at h
      have hm : k = m + 1 := by simpa [Int.natAbs] using hv.symm
      rw [hm] at h
      have hl := congrArg String.length h
      simp only [String.length_append] at hl
      have : ("-" : String).length = 1 := rfl
      omega
    | negSucc k =>
      have : m = k := by simpa [Int.natAbs] using hv
      rw [this]

theorem pad2_value (n : Int) (h0 : 0 ≤ n) (h1 : n < 60) :
    (decimalValue (pad2 n).data : Int) = n := by
  interval_cases n <;> rfl

theorem pad2_injective (a b : Int) (ha0 : 0 ≤ a) (ha1 : a < 60) (hb0 : 0 ≤ b) (hb1 : b < 60)
    (h : pad2 a = pad2 b) : a = b := by
  rw [← pad2_value a ha0 ha1, ← pad2_value b hb0 hb1, h]

/-! ## Window identity -/

theorem getMonth_succ_range (d : Date) : 0 ≤ getMonth d + 1 ∧ getMonth d + 1 < 60 := by
  have := MonthFromTime_range d
  unfold getMonth
  omega

theorem getDate_range (d : Date) : 0 ≤ getDate d ∧ getDate d < 60 := by
  have := DateFromTime_range d
  unfold getDate
  omega

theorem pad2_data_length (n : Int) (h0 : 0 ≤ n) (h1 : n < 60) : (pad2 n).data.length = 2 :=
  pad2_length n h0 h1

/-- The day window id determines, and is determined by, year, month and day
of the month. -/
theorem getDayWindowId_components (a b : Date) :
    getDayWindowId a = getDayWindowId b ↔
      getFullYear a = getFullYear b ∧ getMonth a = getMonth b ∧ getDate a = getDate b := by
  constructor
  · intro h
    unfold getDayWindowId at h
    have hl := congrArg String.data h
    simp only [String.data_append] at hl
    have hda := getDate_range a
    have hdb := getDate_range b
    have hma := getMonth_succ_range a
    have hmb := getMonth_succ_range b
    obtain ⟨e1, e2⟩ := List.append_inj' hl (by
      rw [pad2_data_length _ hda.1 hda.2, pad2_data_length _ hdb.1 hdb.2])
    obtain ⟨e3, e4⟩ := List.append_inj' e1 (by
      rw [pad2_data_length _ hma.1 hma.2, pad2_data_length _ hmb.1 hmb.2])
    refine ⟨numberToString_injective _ _ (String.ext e3), ?_, ?_⟩
    · have := pad2_injective _ _ hma.1 hma.2 hmb.1 hmb.2 (String.ext e4)
      omega
    · exact pad2_injective _ _ hda.1 hda.2 hdb.1 hdb.2 (String.ext e2)
  · rintro ⟨h1, h2, h3⟩
    unfold getDayWindowId
    rw [h1, h2, h3]

/-- The day window id is the same exactly for instants with the same day
number. -/
theorem getDayWindowId_eq_iff_Day (a b : Date) :
    getDayWindowId a = getDayWindowId b ↔ Day a = Day b := by
  rw [getDayWindowId_components]
  unfold getFullYear getMonth getDate
  constructor
  · rintro ⟨h1, h2, h3⟩
    exact Day_of_components a b h1 h2 h3
  · intro h
    exact components_of_Day a b h

/-- The minute window id determines, and is determined by, the day window id,
the hour and the minute. -/
theorem getMinuteWindowId_parts (a b : Date) :
    getMinuteWindowId a = getMinuteWindowId b ↔
      getDayWindowId a = getDayWindowId b ∧ getHours a = getHours b ∧
        getMinutes a = getMinutes b := by
  constructor
  · intro h
    rw [getMinuteWindowId_eq_append, getMinuteWindowId_eq_append] at h
    have hl := congrArg String.data h
    simp only [String.data_append] at hl
    have hha := getHours_range a
    have hhb := getHours_range b
    have hma := getMinutes_range a
    have hmb := getMinutes_range b
    obtain ⟨e1, e2⟩ := List.append_inj' hl (by
      rw [pad2_data_length _ hma.1 hma.2, pad2_data_length _ hmb.1 hmb.2])
    obtain ⟨e3, e4⟩ := List.append_inj' e1 (by
      rw [pad2_data_length _ hha.1 hha.2, pad2_data_length _ hhb.1 hhb.2])
    have e5 := List.append_inj_left' e3 rfl
    exact ⟨String.ext e5, pad2_injective _ _ hha.1 hha.2 hhb.1 hhb.2 (String.ext e4),
      pad2_injective _ _ hma.1 hma.2 hmb.1 hmb.2 (String.ext e2)⟩
  · rintro ⟨h1, h2, h3⟩
    rw [getMinuteWindowId_eq_append, getMinuteWindowId_eq_append, h1, h2, h3]

/-- Day number, hour and minute together are the minute number. -/
theorem minute_number_iff (a b : Date) :
    a / msPerMinute = b / msPerMinute ↔
      Day a = Day b ∧ getHours a = getHours b ∧ getMinutes a = getMinutes b := by
  have key : ∀ x : Int, x / 86400000 = x / 60000 / 1440 ∧ x / 3600000 = x / 60000 / 60 := by
    intro x
    constructor <;> omega
  have ha := key a
  have hb := key b
  unfold Day getHours getMinutes HourFromTime MinFromTime msPerMinute msPerHour msPerDay
  unfold Date at *
  constructor
  · intro h
    rw [ha.1, ha.2, hb.1, hb.2, h]
    exact ⟨rfl, rfl, rfl⟩
  · rintro ⟨h1, h2, h3⟩
    rw [ha.1, hb.1] at h1
    rw [ha.2, hb.2] at h2
    omega

/-- The minute window id is the same exactly for instants with the same
minute number. -/
theorem getMinuteWindowId_eq_iff_minute (a b : Date) :
    getMinuteWindowId a = getMinuteWindowId b ↔ a / msPerMinute = b / msPerMinute := by
  rw [getMinuteWindowId_parts, getDayWindowId_eq_iff_Day, minute_number_iff]

/-- C11. Two instants have the same minute window id exactly when their local
year, month, day of the month, hour and minute agree, which is exactly when
they lie in the same minute (same quotient by 60000 ms): seconds and
milliseconds do not matter, the first millisecond of a minute and the instant
59.999 seconds later share the id, and the last millisecond of a minute and
the first of the next one get different ids. -/
theorem minute_window_id_identity (d1 d2 : Date) :
    (getMinuteWindowId d1 = getMinuteWindowId d2 ↔
        getFullYear d1 = getFullYear d2 ∧ getMonth d1 = getMonth d2 ∧
          getDate d1 = getDate d2 ∧ getHours d1 = getHours d2 ∧
          getMinutes d1 = getMinutes d2)
      ∧ (getMinuteWindowId d1 = getMinuteWindowId d2 ↔ d1 / msPerMinute = d2 / msPerMinute)
      ∧ getMinuteWindowId (d1 / msPerMinute * msPerMinute + 59 * msPerSecond + 999) =
          getMinuteWindowId (d1 / msPerMinute * msPerMinute)
      ∧ getMinuteWindowId (d1 / msPerMinute * msPerMinute - 1) ≠
          getMinuteWindowId (d1 / msPerMinute * msPerMinute) := by
  refine ⟨?_, getMinuteWindowId_eq_iff_minute d1 d2, ?_, ?_⟩
  · rw [getMinuteWindowId_parts, getDayWindowId_components]
    tauto
  · rw [getMinuteWindowId_eq_iff_minute]
    unfold msPerMinute msPerSecond Date at *
    omega
  · rw [Ne, getMinuteWindowId_eq_iff_minute]
    unfold msPerMinute Date at *
    omega

/-- C12. Two instants have the same day window id exactly when their local
year, month and day of the month agree, which is exactly when they lie in the
same calendar day (same day number): the id is constant from midnight to the
last millisecond of the day and differs between the last millisecond of a day
and the midnight that follows. -/
theorem day_window_id_identity (d1 d2 : Date) :
    (getDayWindowId d1 = getDayWindowId d2 ↔
        getFullYear d1 = getFullYear d2 ∧ getMonth d1 = getMonth d2 ∧
          getDate d1 = getDate d2)
      ∧ (getDayWindowId d1 = getDayWindowId d2 ↔ Day d1 = Day d2)
      ∧ getDayWindowId (Day d1 * msPerDay) = getDayWindowId d1
      ∧ getDayWindowId (Day d1 * msPerDay + (msPerDay - 1)) = getDayWindowId d1
      ∧ getDayWindowId (Day d1 * msPerDay - 1) ≠ getDayWindowId (Day d1 * msPerDay) := by
  refine ⟨getDayWindowId_components d1 d2, getDayWindowId_eq_iff_Day d1 d2, ?_, ?_, ?_⟩
  · rw [getDayWindowId_eq_iff_Day]
    unfold Day msPerDay Date at *
    omega
  · rw [getDayWindowId_eq_iff_Day]
    unfold Day msPerDay Date at *
    omega
  · rw [Ne, getDayWindowId_eq_iff_Day]
    unfold Day msPerDay Date at *
    omega

theorem minuteExpiry_eq (now : Date) : minuteExpiry now = now + 60000 := by
  unfold minuteExpiry setMinutes getMinutes MakeDate MakeTime Day HourFromTime MinFromTime
    SecFromTime msFromTime msPerDay msPerHour msPerMinute msPerSecond
  unfold Date at *
  omega

theorem dayExpiry_eq (now : Date) : dayExpiry now = (Day now + 1) * msPerDay := by
  have h := MakeDay_of_time now (getDate now + 1)
  unfold getDate at h
  unfold dayExpiry setHours setDate getDate MakeDate MakeTime
  rw [h]
  unfold Day TimeWithinDay msPerDay msPerHour msPerMinute msPerSecond
  unfold Date at *
  omega

/-- On local time values, as on a server whose zone has no transitions: the
minute expiry is `now` plus 60 seconds, also when the minute, hour, day, month
or year rolls over; the day expiry is midnight of the next calendar day: day
number one more than that of `now`, time within the day 0, hence hour and
minute 0, after `now` and at most one day later. -/
theorem expiries_of_request (now : Date) :
    minuteExpiry now = now + 60 * msPerSecond
      ∧ dayExpiry now = (Day now + 1) * msPerDay
      ∧ Day (dayExpiry now) = Day now + 1
      ∧ TimeWithinDay (dayExpiry now) = 0
      ∧ getHours (dayExpiry now) = 0 ∧ getMinutes (dayExpiry now) = 0
      ∧ now < dayExpiry now ∧ dayExpiry now ≤ now + msPerDay := by
  rw [minuteExpiry_eq, dayExpiry_eq]
  unfold Day TimeWithinDay getHours getMinutes HourFromTime MinFromTime msPerDay msPerHour
    msPerMinute msPerSecond
  unfold Date at *
  refine ⟨by omega, by omega, by omega, by omega, by omega, by omega, by omega, by omega⟩

/-! ## Audit records, events and failures -/

/-- C14. A request with an active key whose store operations all succeed
appends exactly one access-log record after the existing ones: its key is the
request's key, its endpoint the request path, its status the status the caller
sees (200 when allowed, 429 when denied, and nothing else), and its
`minuteCount` and `dayCount` are the two post-increment counts. -/
theorem decision_appends_one_access_log (io : Bool) (env : Env) (req : Request) (w : World)
    (apiKey : String) (keyData : ApiKey)
    (hkey : req.apiKey = some apiKey) (hne : apiKey ≠ "")
    (hactive : findActiveKey w.apiKeys apiKey = some keyData)
    (hok : env.faults = {}) :
    (rateLimiter io env req w).2.accessLogs = w.accessLogs ++
        [{ key := apiKey, endpoint := req.path,
           status := (rateLimiter io env req w).1.status,
           timestamp := env.logTime,
           minuteCount := (incrementAndGet apiKey .minute (getMinuteWindowId env.now)
             (minuteExpiry env.now) w.usageWindows).1,
           dayCount := (incrementAndGet apiKey .day (getDayWindowId env.now)
             (dayExpiry env.now) w.usageWindows).1 }]
      ∧ ((rateLimiter io env req w).1.allowed = true ∧ (rateLimiter io env req w).1.status = 200
        ∨ (rateLimiter io env req w).1.allowed = false
          ∧ (rateLimiter io env req w).1.status = 429) := by
  obtain ⟨hout, _, _, hlogs⟩ := rateLimiter_served io env req w apiKey keyData hkey hne hactive
    hok _ _ rfl rfl
  rw [hlogs, hout, incrementAndGet_fst, incrementAndGet_fst]
  generalize countOf apiKey .minute (getMinuteWindowId env.now) w.usageWindows + 1 = mc
  generalize countOf apiKey .day (getDayWindowId env.now) w.usageWindows + 1 = dc
  by_cases h1 : (mc : Int) > keyData.perMinute
  · simp [h1, Outcome.status, Outcome.allowed]
  · by_cases h2 : (dc : Int) > keyData.perDay
    · simp [h1, h2, Outcome.status, Outcome.allowed]
    · simp [h1, h2, Outcome.status, Outcome.allowed]

theorem decision_appends_one_access_log_witness :
    (rateLimiter true sampleEnv sampleRequest (sampleWorldAt 5 5)).2.accessLogs =
      [{ key := "ak_limited", endpoint := "/", status := 429, timestamp := sampleNow + 4,
         minuteCount := 6, dayCount := 6 }] :=
  (decision_appends_one_access_log true sampleEnv sampleRequest (sampleWorldAt 5 5)
    "ak_limited" limitedKey rfl (by decide) (by decide) rfl).1.trans (by decide)

/-- C15, at the failing input: the sixth request of the limited key in one
minute, with a Socket.io server supplied and every store operation
succeeding, is denied with 429; both counters are incremented and the access
log is written, but no `'usage.update'` event is emitted.  The fifth request,
which is allowed, emits the event. -/
theorem denied_request_emits_no_usage_update :
    (rateLimiter true sampleEnv sampleRequest (sampleWorldAt 5 5)).1 =
        .responded { status := 429, body := .errorLimit "Too Many Requests" 5 }
      ∧ (rateLimiter true sampleEnv sampleRequest (sampleWorldAt 5 5)).2.emitted = []
      ∧ (rateLimiter true sampleEnv sampleRequest (sampleWorldAt 5 5)).2.usageWindows =
          (sampleWorldAt 6 6).usageWindows
      ∧ (rateLimiter true sampleEnv sampleRequest (sampleWorldAt 5 5)).2.accessLogs.length = 1
      ∧ (rateLimiter true sampleEnv sampleRequest (sampleWorldAt 4 4)).2.emitted =
          [{ key := "ak_limited", minute := 5, day := 5, keyId := 2 }] := by
  decide

/-- C16, counterexample: with `AccessLog.create` rejecting, the first request
of the limited key, which the counts allow, is answered 500 instead of being
passed to `next()`, and the sixth, which the counts deny, is answered 500
instead of 429. -/
theorem access_log_failure_changes_outcome :
    (rateLimiter true sampleEnv sampleRequest sampleWorld).1 =
        .next { minute := 1, day := 1 } limitedKey
      ∧ (rateLimiter true sampleEnvLogFails sampleRequest sampleWorld).1 =
        .responded { status := 500, body := .error "Internal server error" }
      ∧ (rateLimiter true sampleEnv sampleRequest (sampleWorldAt 5 5)).1 =
        .responded { status := 429, body := .errorLimit "Too Many Requests" 5 }
      ∧ (rateLimiter true sampleEnvLogFails sampleRequest (sampleWorldAt 5 5)).1 =
        .responded { status := 500, body := .error "Internal server error" } := by
  decide

/-- C16, amended. When the lookup and both increments succeed and
`AccessLog.create` rejects, the request is answered 500
`'Internal server error'` whatever the counts decide: `next()` is not called
and no 429 is sent.  Both counters stay incremented; nothing else changes (no
access log, no event). -/
theorem access_log_failure_is_500 (io : Bool) (env : Env) (req : Request) (w : World)
    (apiKey : String) (keyData : ApiKey)
    (hkey : req.apiKey = some apiKey) (hne : apiKey ≠ "")
    (hactive : findActiveKey w.apiKeys apiKey = some keyData)
    (hf1 : env.faults.findActiveKey = false) (hf2 : env.faults.minuteIncrement = false)
    (hf3 : env.faults.dayIncrement = false) (hlog : env.faults.accessLog = true) :
    (rateLimiter io env req w).1 =
        .responded { status := 500, body := .error "Internal server error" }
      ∧ (rateLimiter io env req w).2 =
        { w with usageWindows :=
            (incrementAndGet apiKey .day (getDayWindowId env.now) (dayExpiry env.now)
              (incrementAndGet apiKey .minute (getMinuteWindowId env.now) (minuteExpiry env.now)
                w.usageWindows).2).2 } := by
  rw [rateLimiter_active io env req w apiKey keyData hkey hne hactive hf1 hf2 hf3]
  unfold checkRateLimits
  simp only [hlog, if_true, internalServerError]
  constructor <;> split_ifs <;> rfl

theorem access_log_failure_is_500_witness :
    (rateLimiter true sampleEnvLogFails sampleRequest sampleWorld).1 =
      .responded { status := 500, body := .error "Internal server error" } :=
  (access_log_failure_is_500 true sampleEnvLogFails sampleRequest sampleWorld "ak_limited"
    limitedKey rfl (by decide) (by decide) rfl rfl rfl rfl).1

/-- C17. A request carrying a credential whose key lookup rejects, or whose
key is active and whose minute or day increment rejects, is answered 500
`'Internal server error'`: not 200, 401 or 429, `next()` is not called, no
access log is appended and no event is emitted. -/
theorem store_failure_is_500 (io : Bool) (env : Env) (req : Request) (w : World)
    (k : String) (hkey : req.apiKey = some k) (hne : k ≠ "")
    (hfail : env.faults.findActiveKey = true ∨
      ∃ kd, findActiveKey w.apiKeys k = some kd ∧
        (env.faults.minuteIncrement = true ∨ env.faults.dayIncrement = true)) :
    (rateLimiter io env req w).1 =
        .responded { status := 500, body := .error "Internal server error" }
      ∧ (rateLimiter io env req w).1.status = 500
      ∧ (rateLimiter io env req w).1.allowed = false
      ∧ (rateLimiter io env req w).2.accessLogs = w.accessLogs
      ∧ (rateLimiter io env req w).2.emitted = w.emitted
      ∧ (rateLimiter io env req w).2.apiKeys = w.apiKeys := by
  rcases env with ⟨now, logTime, ⟨f1, f2, f3, f4⟩⟩
  rcases req with ⟨key, path⟩
  simp only at hkey hfail
  subst hkey
  rcases hfail with h | ⟨kd, hfind, h | h⟩
  · subst h
    simp [rateLimiter, hne, internalServerError, Outcome.status, Outcome.allowed]
  · subst h
    cases f1 <;> cases f3 <;>
      simp [rateLimiter, hne, hfind, internalServerError, Outcome.status, Outcome.allowed]
  · subst h
    cases f1 <;> cases f2 <;>
      simp [rateLimiter, hne, hfind, internalServerError, Outcome.status, Outcome.allowed]

theorem store_failure_is_500_witness :
    (rateLimiter true { sampleEnv with faults := { dayIncrement := true } } sampleRequest
      sampleWorld).1.status = 500 :=
  (store_failure_is_500 true { sampleEnv with faults := { dayIncrement := true } } sampleRequest
    sampleWorld "ak_limited" rfl (by decide)
    (Or.inr ⟨limitedKey, by decide, Or.inr rfl⟩)).2.1

/-- C18, counterexample: the store holds a minute window of the limited key
that expired at time 0 and counts 3; at `sampleNow` an increment of that
composite key returns 4, not 1, and `getCurrentUsage` reports 3, not 0. -/
theorem expired_record_still_counts :
    (0 : Date) < sampleNow
      ∧ findOneWindow "ak_limited" .minute (getMinuteWindowId sampleNow) staleStore =
          some { key := "ak_limited", type := .minute, windowId := "20240229-2359",
                 count := 3, expiresAt := 0 }
      ∧ (incrementAndGet "ak_limited" .minute (getMinuteWindowId sampleNow)
          (minuteExpiry sampleNow) staleStore).1 = 4
      ∧ (incrementAndGet "ak_limited" .minute (getMinuteWindowId sampleNow)
          (minuteExpiry sampleNow) staleStore).1 ≠ 1
      ∧ (getCurrentUsage sampleNow "ak_limited" staleStore).minute = 3
      ∧ (getCurrentUsage sampleNow "ak_limited" staleStore).minute ≠ 0 := by
  decide

/-- C18, amended. `incrementAndGet` and `getCurrentUsage` never read
`expiresAt`: while a document is stored for the composite key of the current
window, expired or not, an increment returns its count plus 1 and
`getCurrentUsage` reports its count. -/
theorem stored_record_counts_whatever_expiry (coll : List UsageWindow) (key : String)
    (type : WindowType) (now expiry : Date) (d : UsageWindow)
    (hfound : findOneWindow key type (windowIdOf type now) coll = some d) :
    (incrementAndGet key type (windowIdOf type now) expiry coll).1 = d.count + 1
      ∧ (match type with
         | .minute => (getCurrentUsage now key coll).minute
         | .day => (getCurrentUsage now key coll).day) = d.count := by
  constructor
  · rw [incrementAndGet_fst]
    simp [countOf, hfound]
  · cases type <;> simp only [windowIdOf] at hfound <;> simp [getCurrentUsage, hfound]

theorem stored_record_counts_whatever_expiry_witness :
    (incrementAndGet "ak_limited" .minute (windowIdOf .minute sampleNow)
      (minuteExpiry sampleNow) staleStore).1 = 3 + 1 :=
  (stored_record_counts_whatever_expiry staleStore "ak_limited" .minute sampleNow
    (minuteExpiry sampleNow)
    { key := "ak_limited", type := .minute, windowId := "20240229-2359", count := 3,
      expiresAt := 0 } (by decide)).1

/-! ## Deleted keys -/

theorem cleanupUsage_apiKeys (faults : DeleteFaults) (keyValue : String) (w : World) :
    (cleanupUsage faults keyValue w).apiKeys = w.apiKeys := by
  unfold cleanupUsage
  split_ifs <;> rfl

/-- With key strings unique, erasing the first record that satisfies `p`
leaves no record with that record's key. -/
theorem no_key_after_eraseP (p : ApiKey → Bool) :
    ∀ (l : List ApiKey) (a : ApiKey), (l.map (·.key)).Nodup → l.find? p = some a →
      ∀ d ∈ l.eraseP p, d.key ≠ a.key := by
  intro l
  induction l with
  | nil => intro a _ h; simp at h
  | cons x rest ih =>
    intro a hnd hfind d hd
    simp only [List.map_cons, List.nodup_cons, List.mem_map, not_exists, not_and] at hnd
    by_cases hp : p x = true
    · simp only [List.find?_cons, hp, Option.some.injEq] at hfind
      subst hfind
      rw [List.eraseP_cons_of_pos hp] at hd
      exact fun h => hnd.1 d hd h
    · simp only [Bool.not_eq_true] at hp
      simp only [List.find?_cons, hp] at hfind
      rw [List.eraseP_cons_of_neg (by simp [hp])] at hd
      rcases List.mem_cons.mp hd with hdx | hdr
      · subst hdx
        have hmem : a ∈ rest := List.mem_of_find?_eq_some hfind
        exact fun h => hnd.1 a hmem h.symm
      · exact ih a hnd.2 hfind d hdr

theorem run_requests_apiKeys : ∀ (arrivals : List Arrival) (w : World),
    (run (arrivals.map .request) w).2.apiKeys = w.apiKeys
  | [], _ => rfl
  | a :: rest, w => by
    simp only [List.map_cons, run]
    rw [run_requests_apiKeys rest, rateLimiter_apiKeys]

/-- C19. After `DELETE /keys/:id` has answered with success for the record
with key `k` (key strings being unique, as the schema's index requires), and
after any further requests served by the middleware, a request carrying `k`
whose lookup succeeds is answered 401 `'Invalid or inactive API key'`: it is
not allowed, not answered 429 or 500, and leaves the whole world, counters
included, unchanged. -/
theorem deleted_key_is_rejected (faults : DeleteFaults) (id : Nat) (w w' : World)
    (k name : String) (later : List Arrival) (io : Bool) (env : Env) (req : Request)
    (hunique : (w.apiKeys.map (·.key)).Nodup)
    (hdeleted : deleteKey faults id w = (.deleted id k name, w'))
    (hk : k ≠ "") (hreq : req.apiKey = some k)
    (hlookup : env.faults.findActiveKey = false) :
    rateLimiter io env req (run (later.map .request) w').2 =
      (.responded { status := 401, body := .error "Invalid or inactive API key" },
       (run (later.map .request) w').2) := by
  have hnone : findActiveKey (run (later.map .request) w').2.apiKeys k = none := by
    rw [run_requests_apiKeys, findActiveKey_eq_none]
    unfold deleteKey at hdeleted
    by_cases h1 : faults.findById = true
    · simp [h1] at hdeleted
    simp only [h1, if_false] at hdeleted
    cases hfind : w.apiKeys.find? (fun d => d.id == id) with
    | none => simp [hfind] at hdeleted
    | some apiKey =>
      simp only [hfind] at hdeleted
      by_cases h2 : faults.findByIdAndDelete = true
      · simp [h2] at hdeleted
      simp only [h2, if_false, Prod.mk.injEq, DeleteOutcome.deleted.injEq, true_and]
        at hdeleted
      obtain ⟨⟨rfl, _⟩, rfl⟩ := hdeleted
      rw [cleanupUsage_apiKeys]
      intro d hd hdk
      exact no_key_after_eraseP _ w.apiKeys apiKey hunique hfind d hd hdk.1
  simp only [rateLimiter, hreq, hk, hlookup, hnone, if_false, Bool.false_eq_true]

theorem deleted_key_is_rejected_witness :
    rateLimiter true sampleEnv sampleRequest
        (run (sampleArrivals.map .request) (deleteKey {} 2 (sampleWorldAt 3 3)).2).2 =
      (.responded { status := 401, body := .error "Invalid or inactive API key" },
       (run (sampleArrivals.map .request) (deleteKey {} 2 (sampleWorldAt 3 3)).2).2) :=
  deleted_key_is_rejected {} 2 (sampleWorldAt 3 3) (deleteKey {} 2 (sampleWorldAt 3 3)).2
    "ak_limited" "Limited API Key" sampleArrivals true sampleEnv sampleRequest
    (by decide) (by decide) (by decide) rfl rfl

/-! ## Allowed first, denied afterwards -/

/-- The statuses of a run of requests of one key in one minute window and one
day window, from a world where the two windows count `m0 + c` and `d0 + c`. -/
theorem run_fixed_windows_statuses (k : String) (kd : ApiKey) (minuteWindow dayWindow : String)
    (m0 d0 : Nat) (hk : k ≠ "") :
    ∀ (arrivals : List Arrival) (w : World) (c : Nat),
      findActiveKey w.apiKeys k = some kd →
      countOf k .minute minuteWindow w.usageWindows = m0 + c →
      countOf k .day dayWindow w.usageWindows = d0 + c →
      (∀ a ∈ arrivals, a.req.apiKey = some k ∧ a.env.faults = {} ∧
        getMinuteWindowId a.env.now = minuteWindow ∧ getDayWindowId a.env.now = dayWindow) →
      (run (arrivals.map .request) w).1.map Outcome.status =
        (List.range' (c + 1) arrivals.length).map (fun n =>
          if ((m0 + n : Nat) : Int) ≤ kd.perMinute ∧ ((d0 + n : Nat) : Int) ≤ kd.perDay
          then 200 else 429) := by
  intro arrivals
  induction arrivals with
  | nil => intro w c _ _ _ _; simp [run]
  | cons a rest ih =>
    intro w c hactive hm hd hall
    obtain ⟨hkey, hok, hmw, hdw⟩ := hall a (List.mem_cons_self a rest)
    have hmc : countOf k .minute (getMinuteWindowId a.env.now) w.usageWindows + 1
        = m0 + (c + 1) := by rw [hmw, hm]; omega
    have hdc : countOf k .day (getDayWindowId a.env.now) w.usageWindows + 1
        = d0 + (c + 1) := by rw [hdw, hd]; omega
    obtain ⟨hout, hkeys, hwins, _⟩ :=
      rateLimiter_served a.io a.env a.req w k kd hkey hk hactive hok _ _ hmc hdc
    have hactive' : findActiveKey (rateLimiter a.io a.env a.req w).2.apiKeys k = some kd := by
      rw [hkeys]; exact hactive
    have hm' : countOf k .minute minuteWindow (rateLimiter a.io a.env a.req w).2.usageWindows
        = m0 + (c + 1) := by
      rw [hwins, countOf_incrementAndGet_other _ _ _ _ _ _ _ _ (by simp), hmw,
        countOf_incrementAndGet_self, hm]
      omega
    have hd' : countOf k .day dayWindow (rateLimiter a.io a.env a.req w).2.usageWindows
        = d0 + (c + 1) := by
      rw [hwins, hdw, countOf_incrementAndGet_self,
        countOf_incrementAndGet_other _ _ _ _ _ _ _ _ (by simp), hd]
      omega
    have ih' := ih (rateLimiter a.io a.env a.req w).2 (c + 1) hactive' hm' hd'
      (fun b hb => hall b (List.mem_cons_of_mem a hb))
    simp only [List.map_cons, run, List.length_cons, List.range'_succ]
    rw [ih', hout]
    congr 1
    by_cases h1 : ((m0 + (c + 1) : Nat) : Int) > kd.perMinute
    · have : ¬ (((m0 + (c + 1) : Nat) : Int) ≤ kd.perMinute) := by omega
      rw [if_pos h1, if_neg (fun h => this h.1)]
      rfl
    · by_cases h2 : ((d0 + (c + 1) : Nat) : Int) > kd.perDay
      · have : ¬ (((d0 + (c + 1) : Nat) : Int) ≤ kd.perDay) := by omega
        rw [if_neg h1, if_pos h2, if_neg (fun h => this h.2)]
        rfl
      · have h1' : ((m0 + (c + 1) : Nat) : Int) ≤ kd.perMinute := by omega
        have h2' : ((d0 + (c + 1) : Nat) : Int) ≤ kd.perDay := by omega
        rw [if_neg h1, if_neg h2, if_pos ⟨h1', h2'⟩]
        rfl

/-- A condition that, once false, stays false along `s, s + 1, ...` maps that
range to a block of 200s followed by a block of 429s. -/
theorem statuses_block (P : Nat → Prop) [DecidablePred P] (hP : ∀ n, P (n + 1) → P n) :
    ∀ (len s : Nat), ∃ a, a ≤ len ∧
      (List.range' s len).map (fun n => if P n then 200 else 429) =
        List.replicate a 200 ++ List.replicate (len - a) 429 := by
  intro len
  induction len with
  | zero => intro s; exact ⟨0, le_rfl, rfl⟩
  | succ len ih =>
    intro s
    obtain ⟨a, ha, hrec⟩ := ih (s + 1)
    by_cases hs : P s
    · refine ⟨a + 1, by omega, ?_⟩
      simp only [List.range'_succ, List.map_cons, hs, if_true, hrec, List.replicate_succ,
        List.cons_append]
      congr 3
      omega
    · have hnot : ∀ j, ¬ P (s + j) := by
        intro j
        induction j with
        | zero => exact hs
        | succ j ihj => exact fun h => ihj (hP _ h)
      have hall : (List.range' (s + 1) len).map (fun n => if P n then 200 else 429) =
          List.replicate len 429 := by
        apply List.eq_replicate_iff.mpr
        refine ⟨by simp, ?_⟩
        intro b hb
        obtain ⟨n, hn, rfl⟩ := List.mem_map.mp hb
        rw [List.mem_range'_1] at hn
        have := hnot (n - s)
        rw [show s + (n - s) = n by omega] at this
        simp [this]
      refine ⟨0, by omega, ?_⟩
      simp only [List.range'_succ, List.map_cons, hs, if_false, hall, List.replicate_zero,
        List.nil_append, Nat.sub_zero, List.replicate_succ]

/-- C20. Requests of one active key with fixed limits, all in one minute
window and one day window, served one after another with every store
operation succeeding: the statuses are some number of 200s followed only by
429s, so after the first 429 every later request is answered 429. -/
theorem statuses_200_then_429 (w : World) (k : String) (kd : ApiKey)
    (minuteWindow dayWindow : String) (arrivals : List Arrival) (hk : k ≠ "")
    (hactive : findActiveKey w.apiKeys k = some kd)
    (hreq : ∀ a ∈ arrivals, a.req.apiKey = some k ∧ a.env.faults = {} ∧
      getMinuteWindowId a.env.now = minuteWindow ∧ getDayWindowId a.env.now = dayWindow) :
    ∃ allowed, allowed ≤ arrivals.length ∧
      (run (arrivals.map .request) w).1.map Outcome.status =
        List.replicate allowed 200 ++ List.replicate (arrivals.length - allowed) 429 := by
  rw [run_fixed_windows_statuses k kd minuteWindow dayWindow
    (countOf k .minute minuteWindow w.usageWindows) (countOf k .day dayWindow w.usageWindows)
    hk arrivals w 0 hactive rfl rfl hreq]
  exact statuses_block
    (fun n => ((countOf k .minute minuteWindow w.usageWindows + n : Nat) : Int) ≤ kd.perMinute ∧
      ((countOf k .day dayWindow w.usageWindows + n : Nat) : Int) ≤ kd.perDay)
    (fun n h => by push_cast at h ⊢; omega) arrivals.length (0 + 1)

theorem statuses_200_then_429_witness :
    ∃ allowed, allowed ≤ sampleArrivals.length ∧
      (run (sampleArrivals.map .request) (sampleWorldAt 2 97)).1.map Outcome.status =
        List.replicate allowed 200 ++
          List.replicate (sampleArrivals.length - allowed) 429 :=
  statuses_200_then_429 (sampleWorldAt 2 97) "ak_limited" limitedKey "20240229-2359"
    "20240229" sampleArrivals (by decide) (by decide) (by decide)

/-! ## Frame of a request -/

/-- The usage windows after a request: untouched, or with the minute window,
the day window, or both windows of the request's key incremented. -/
theorem rateLimiter_usageWindows_cases (io : Bool) (env : Env) (req : Request) (w : World) :
    (rateLimiter io env req w).2.usageWindows = w.usageWindows
      ∨ ∃ apiKey, req.apiKey = some apiKey ∧
        ((rateLimiter io env req w).2.usageWindows =
            (incrementAndGet apiKey .minute (getMinuteWindowId env.now) (minuteExpiry env.now)
              w.usageWindows).2
          ∨ (rateLimiter io env req w).2.usageWindows =
            (incrementAndGet apiKey .day (getDayWindowId env.now) (dayExpiry env.now)
              w.usageWindows).2
          ∨ (rateLimiter io env req w).2.usageWindows =
            (incrementAndGet apiKey .day (getDayWindowId env.now) (dayExpiry env.now)
              (incrementAndGet apiKey .minute (getMinuteWindowId env.now)
                (minuteExpiry env.now) w.usageWindows).2).2) := by
  rcases env with ⟨now, logTime, ⟨f1, f2, f3, f4⟩⟩
  rcases req with ⟨_ | apiKey, path⟩
  · exact Or.inl rfl
  · by_cases hne : apiKey = ""
    · left
      simp [rateLimiter, hne]
    · cases hfind : findActiveKey w.apiKeys apiKey with
      | none =>
        left
        cases f1 <;> simp [rateLimiter, hne, hfind]
      | some kd =>
        cases f1
        · cases f2 <;> cases f3
          · exact Or.inr ⟨apiKey, rfl, Or.inr (Or.inr
              (by simp [rateLimiter, hne, hfind, checkRateLimits_world]))⟩
          · exact Or.inr ⟨apiKey, rfl, Or.inl
              (by simp [rateLimiter, hne, hfind, checkRateLimits_world])⟩
          · exact Or.inr ⟨apiKey, rfl, Or.inr (Or.inl
              (by simp [rateLimiter, hne, hfind, checkRateLimits_world]))⟩
          · exact Or.inl (by simp [rateLimiter, hne, hfind, checkRateLimits_world])
        · left
          simp [rateLimiter, hne, hfind]

/-- `findOneAndUpdate` leaves every document that does not match its filter in
place and unchanged. -/
theorem filter_findOneAndUpdate (key : String) (type : WindowType) (windowId : String)
    (expiry : Date) (p : UsageWindow → Bool)
    (hp : ∀ d, matchesWindow key type windowId d = true → p d = false) :
    ∀ coll : List UsageWindow,
      (findOneAndUpdate key type windowId expiry coll).2.filter p = coll.filter p
  | [] => by
    have h := hp { key := key, type := type, windowId := windowId, count := 1,
                   expiresAt := expiry } (by simp [matchesWindow])
    simp [findOneAndUpdate, h]
  | d :: rest => by
    by_cases hm : matchesWindow key type windowId d = true
    · have h1 := hp d hm
      have h2 := hp { d with count := d.count + 1 } (by rw [matchesWindow_inc]; exact hm)
      simp [findOneAndUpdate, hm, List.filter_cons, h1, h2]
    · simp only [Bool.not_eq_true] at hm
      have ih := filter_findOneAndUpdate key type windowId expiry p hp rest
      simp [findOneAndUpdate, hm, List.filter_cons, ih]

/-- C23. A request carrying key `A` at time `now` leaves every usage window
other than `(A, 'minute', getMinuteWindowId(now))` and
`(A, 'day', getDayWindowId(now))` in place and unchanged, whatever the
outcome: the documents not matching these two composite keys are the same
list before and after, and the document found for any other composite key
(another key, or `A` with another window id) is the same, count and
`expiresAt` included. -/
theorem request_touches_only_its_windows (io : Bool) (env : Env) (req : Request) (w : World)
    (A : String) (hkey : req.apiKey = some A) :
    (rateLimiter io env req w).2.usageWindows.filter (fun d =>
          !(matchesWindow A .minute (getMinuteWindowId env.now) d
            || matchesWindow A .day (getDayWindowId env.now) d))
        = w.usageWindows.filter (fun d =>
          !(matchesWindow A .minute (getMinuteWindowId env.now) d
            || matchesWindow A .day (getDayWindowId env.now) d))
      ∧ ∀ (key : String) (type : WindowType) (windowId : String),
          ¬ (key = A ∧ windowId = windowIdOf type env.now) →
          findOneWindow key type windowId (rateLimiter io env req w).2.usageWindows =
            findOneWindow key type windowId w.usageWindows := by
  have hmin : ∀ coll, ((incrementAndGet A .minute (getMinuteWindowId env.now)
      (minuteExpiry env.now) coll).2).filter (fun d =>
          !(matchesWindow A .minute (getMinuteWindowId env.now) d
            || matchesWindow A .day (getDayWindowId env.now) d))
        = coll.filter (fun d =>
          !(matchesWindow A .minute (getMinuteWindowId env.now) d
            || matchesWindow A .day (getDayWindowId env.now) d)) := fun coll =>
    filter_findOneAndUpdate _ _ _ _ _ (fun d hd => by simp [hd]) coll
  have hday : ∀ coll, ((incrementAndGet A .day (getDayWindowId env.now)
      (dayExpiry env.now) coll).2).filter (fun d =>
          !(matchesWindow A .minute (getMinuteWindowId env.now) d
            || matchesWindow A .day (getDayWindowId env.now) d))
        = coll.filter (fun d =>
          !(matchesWindow A .minute (getMinuteWindowId env.now) d
            || matchesWindow A .day (getDayWindowId env.now) d)) := fun coll =>
    filter_findOneAndUpdate _ _ _ _ _ (fun d hd => by simp [hd]) coll
  have hcases := rateLimiter_usageWindows_cases io env req w
  constructor
  · rcases hcases with h | ⟨apiKey, hk, h | h | h⟩
    · rw [h]
    all_goals
      rw [hkey] at hk
      cases hk
      rw [h]
    · exact hmin _
    · exact hday _
    · rw [hday, hmin]
  · intro key type windowId hne
    have h1 : ¬ (key = A ∧ type = .minute ∧ windowId = getMinuteWindowId env.now) := by
      rintro ⟨rfl, rfl, rfl⟩
      exact hne ⟨rfl, rfl⟩
    have h2 : ¬ (key = A ∧ type = .day ∧ windowId = getDayWindowId env.now) := by
      rintro ⟨rfl, rfl, rfl⟩
      exact hne ⟨rfl, rfl⟩
    rcases hcases with h | ⟨apiKey, hk, h | h | h⟩
    · rw [h]
    all_goals
      rw [hkey] at hk
      cases hk
      rw [h]
      simp only [incrementAndGet]
    · exact findOneWindow_findOneAndUpdate_other _ _ _ _ _ _ _ _ h1
    · exact findOneWindow_findOneAndUpdate_other _ _ _ _ _ _ _ _ h2
    · rw [findOneWindow_findOneAndUpdate_other _ _ _ _ _ _ _ _ h2,
        findOneWindow_findOneAndUpdate_other _ _ _ _ _ _ _ _ h1]

theorem request_touches_only_its_windows_witness :
    findOneWindow "ak_limited" .minute "20240229-2359"
        (rateLimiter true { now := sampleNow + 60000, logTime := sampleNow + 60004 }
          sampleRequest (sampleWorldAt 3 3)).2.usageWindows
      = findOneWindow "ak_limited" .minute "20240229-2359" (sampleWorldAt 3 3).usageWindows :=
  (request_touches_only_its_windows true { now := sampleNow + 60000, logTime := sampleNow + 60004 }
    sampleRequest (sampleWorldAt 3 3) "ak_limited" rfl).2 "ak_limited" .minute "20240229-2359"
    (by decide)

/-! ## Windows end before their expiry -/

/-- An instant in the window of `now` is earlier than the expiry computed
from `now`. -/
theorem lt_windowExpiryOf (type : WindowType) (now t : Date)
    (h : windowIdOf type t = windowIdOf type now) : t < windowExpiryOf type now := by
  cases type
  · simp only [windowIdOf] at h
    rw [getMinuteWindowId_eq_iff_minute] at h
    simp only [windowExpiryOf]
    rw [minuteExpiry_eq]
    unfold msPerMinute Date at *
    omega
  · simp only [windowIdOf] at h
    rw [getDayWindowId_eq_iff_Day] at h
    simp only [windowExpiryOf]
    rw [dayExpiry_eq]
    unfold Day msPerDay Date at *
    omega

/-- A usage window that a request creates carries the window id and the
expiry computed from the request's time. -/
theorem created_window (io : Bool) (env : Env) (req : Request) (w : World)
    (key : String) (type : WindowType) (windowId : String) (d : UsageWindow)
    (habsent : findOneWindow key type windowId w.usageWindows = none)
    (hcreated : findOneWindow key type windowId (rateLimiter io env req w).2.usageWindows
      = some d) :
    windowId = windowIdOf type env.now ∧ d.expiresAt = windowExpiryOf type env.now := by
  have step : ∀ (apiKey : String) (ty : WindowType) (coll : List UsageWindow)
      (d0 : UsageWindow), findOneWindow key type windowId coll = none →
      findOneWindow key type windowId
        (incrementAndGet apiKey ty (windowIdOf ty env.now) (windowExpiryOf ty env.now) coll).2
          = some d0 →
      key = apiKey ∧ type = ty ∧ windowId = windowIdOf ty env.now ∧
        d0.expiresAt = windowExpiryOf ty env.now := by
    intro apiKey ty coll d0 hnone hsome
    by_cases hk : key = apiKey ∧ type = ty ∧ windowId = windowIdOf ty env.now
    · obtain ⟨rfl, rfl, rfl⟩ := hk
      simp only [incrementAndGet, findOneWindow_findOneAndUpdate_self, findOneAndUpdate_fst,
        hnone, Option.some.injEq] at hsome
      subst hsome
      exact ⟨rfl, rfl, rfl, rfl⟩
    · simp only [incrementAndGet, findOneWindow_findOneAndUpdate_other _ _ _ _ _ _ _ _ hk,
        hnone] at hsome
      cases hsome
  rcases rateLimiter_usageWindows_cases io env req w with h | ⟨apiKey, _, h | h | h⟩
  · rw [h, habsent] at hcreated
    cases hcreated
  · rw [h] at hcreated
    obtain ⟨_, rfl, h3, h4⟩ := step apiKey .minute _ d habsent hcreated
    exact ⟨h3, h4⟩
  · rw [h] at hcreated
    obtain ⟨_, rfl, h3, h4⟩ := step apiKey .day _ d habsent hcreated
    exact ⟨h3, h4⟩
  · rw [h] at hcreated
    cases hmid : findOneWindow key type windowId
        (incrementAndGet apiKey .minute (getMinuteWindowId env.now) (minuteExpiry env.now)
          w.usageWindows).2 with
    | none =>
      obtain ⟨_, rfl, h3, h4⟩ := step apiKey .day _ d hmid hcreated
      exact ⟨h3, h4⟩
    | some d' =>
      obtain ⟨_, rfl, h3, h4⟩ := step apiKey .minute _ d' habsent hmid
      have hother : ¬ (key = apiKey ∧ WindowType.minute = WindowType.day ∧
          windowId = getDayWindowId env.now) := by
        rintro ⟨_, h, _⟩
        cases h
      simp only [incrementAndGet] at hcreated hmid
      rw [findOneWindow_findOneAndUpdate_other _ _ _ _ _ _ _ _ hother, hmid] at hcreated
      cases hcreated
      exact ⟨h3, h4⟩

/-- On local time values, as on a server whose zone has no transitions: a
time `t` whose window id, minute or day, equals that of the request time `now`
is strictly earlier than the expiry computed from `now` for that window; so a
usage window created by a request at `now` has an `expiresAt` later than every
time of its window. -/
theorem window_ends_before_expiry (type : WindowType) (now t : Date)
    (h : windowIdOf type t = windowIdOf type now) :
    t < windowExpiryOf type now
      ∧ ∀ (io : Bool) (env : Env) (req : Request) (w : World) (key : String)
          (d : UsageWindow), env.now = now →
          findOneWindow key type (windowIdOf type t) w.usageWindows = none →
          findOneWindow key type (windowIdOf type t) (rateLimiter io env req w).2.usageWindows
            = some d →
          t < d.expiresAt := by
  refine ⟨lt_windowExpiryOf type now t h, ?_⟩
  intro io env req w key d hnow habsent hcreated
  obtain ⟨_, hexp⟩ := created_window io env req w key type _ d habsent hcreated
  rw [hexp, hnow]
  exact lt_windowExpiryOf type now t h

theorem window_ends_before_expiry_witness :
    sampleNow + 29876 < windowExpiryOf .minute sampleNow :=
  (window_ends_before_expiry .minute sampleNow (sampleNow + 29876) (by decide)).1

/-! ## Key management -/

/-- `POST /keys` stores only keys with both limits at least 1. -/
theorem createKeyRoute_limits (env : CreateEnv) (body : CreateBody) (w : World)
    (hw : ∀ d ∈ w.apiKeys, 1 ≤ d.perMinute ∧ 1 ≤ d.perDay) :
    ∀ d ∈ (createKeyRoute env body w).2.apiKeys, 1 ≤ d.perMinute ∧ 1 ≤ d.perDay := by
  rcases body with ⟨_ | name, perMinute, perDay⟩
  · exact hw
  · by_cases h1 : name = ""
    · simpa [createKeyRoute, h1] using hw
    · by_cases h2 : (env.storeFails || !validApiKey w.apiKeys
          { id := env.id, name := trim name, key := env.key,
            perMinute := orDefault perMinute 50, perDay := orDefault perDay 1000,
            active := true, createdAt := env.now }) = true
      · have hres : (createKeyRoute env ⟨some name, perMinute, perDay⟩ w).2 = w := by
          simp only [createKeyRoute, h1, if_false]
          rw [if_pos h2]
        rw [hres]
        exact hw
      · have hres : (createKeyRoute env ⟨some name, perMinute, perDay⟩ w).2.apiKeys =
            w.apiKeys ++ [(⟨env.id, trim name, env.key, orDefault perMinute 50,
              orDefault perDay 1000, true, env.now⟩ : ApiKey)] := by
          simp only [createKeyRoute, h1, if_false]
          rw [if_neg h2]
        rw [hres]
        intro d hd
        simp only [List.mem_append, List.mem_singleton] at hd
        rcases hd with hd | rfl
        · exact hw d hd
        · simp only [Bool.or_eq_true, Bool.not_eq_true', not_or, Bool.not_eq_true,
            Bool.not_eq_false] at h2
          have hv := h2.2
          simp only [validApiKey, Bool.and_eq_true, decide_eq_true_eq] at hv
          exact ⟨hv.1.1.2, hv.1.2⟩

/-- C22, at the failing input: from the empty key collection, `POST /keys`
with `{ name: 'demo' }` stores a key with the default limits 50 and 1000, and
`PUT /keys/1` with `{ perMinute: 0, perDay: -5 }` then answers 200 and leaves
that key stored with `perMinute = 0` and `perDay = -5`; the same limits sent
to `POST /keys` are refused. -/
theorem update_stores_limits_below_one :
    (runAdmin [.create { id := 1, key := "ak_demo", now := 0 }
                 { name := some "demo", perMinute := none, perDay := none }]
        { apiKeys := [], usageWindows := [], accessLogs := [], emitted := [] }).apiKeys
        = [{ id := 1, name := "demo", key := "ak_demo", perMinute := 50, perDay := 1000,
             active := true, createdAt := 0 }]
      ∧ (runAdmin [.create { id := 1, key := "ak_demo", now := 0 }
                    { name := some "demo", perMinute := none, perDay := none },
                   .update false 1 { perMinute := some 0, perDay := some (-5) }]
        { apiKeys := [], usageWindows := [], accessLogs := [], emitted := [] }).apiKeys
        = [{ id := 1, name := "demo", key := "ak_demo", perMinute := 0, perDay := -5,
             active := true, createdAt := 0 }]
      ∧ (createKeyRoute { id := 2, key := "ak_other", now := 0 }
          { name := some "other", perMinute := some (-5), perDay := some (-5) }
          { apiKeys := [], usageWindows := [], accessLogs := [], emitted := [] }).1 = .failed := by
  decide

/-! ## The burst script -/

/-- C21, at the failing input: three requests sent one at a time, the server
answering 200, 429, 429.  `axios.get` rejects on 429, so the two denials run
the `.catch` callback: `burst` returns `success = 1`, `rateLimited = 0` and
`errors = 2`, where the claim has `rateLimited = 2` and `errors = 0`. -/
theorem burst_counts_429_as_errors :
    burst (fun index => if index = 0 then 200 else 429) 3 1 =
      some { success := 1, rateLimited := 0, errors := 2,
             requests := [(0, 200), (1, 429), (2, 429)] } := by
  decide

theorem batchAt_eq_range' (numRequests : Nat) :
    ∀ (concurrency i : Nat),
      (List.range' i concurrency).takeWhile (fun n => n < numRequests) =
        List.range' i (min concurrency (numRequests - i)) := by
  intro concurrency
  induction concurrency with
  | zero => intro i; simp
  | succ c ih =>
    intro i
    by_cases h : i < numRequests
    · have hmin : min (c + 1) (numRequests - i) = min c (numRequests - (i + 1)) + 1 := by omega
      rw [hmin, List.range'_succ, List.range'_succ, List.takeWhile_cons_of_pos (by simpa using h),
        ih (i + 1)]
    · have hmin : min (c + 1) (numRequests - i) = 0 := by omega
      rw [hmin, List.range'_succ, List.takeWhile_cons_of_neg (by simpa using h)]
      rfl

theorem batchAt_eq (numRequests concurrency i : Nat) :
    batchAt numRequests concurrency i = List.range' i (min concurrency (numRequests - i)) := by
  unfold batchAt
  rw [← batchAt_eq_range' numRequests concurrency i, List.range'_eq_map_range]

/-- With `concurrency >= 1` the batching loop ends within `numRequests - i`
iterations and its batches, one after another, are the indices from `i` up to
`numRequests`. -/
theorem makeBatches_join (numRequests concurrency : Nat) (hc : 1 ≤ concurrency) :
    ∀ (fuel i : Nat), numRequests - i ≤ fuel →
      ∃ batches, makeBatches numRequests concurrency fuel i = some batches ∧
        batches.flatten = List.range' i (numRequests - i) := by
  intro fuel
  induction fuel with
  | zero =>
    intro i h
    refine ⟨[], ?_, ?_⟩
    · have : ¬ i < numRequests := by omega
      simp [makeBatches, this]
    · have : numRequests - i = 0 := by omega
      simp [this]
  | succ fuel ih =>
    intro i h
    by_cases hi : i < numRequests
    · obtain ⟨bs, hbs, hjoin⟩ := ih (i + concurrency) (by omega)
      refine ⟨batchAt numRequests concurrency i :: bs, ?_, ?_⟩
      · simp [makeBatches, hi, hbs]
      · rw [List.flatten_cons, hjoin, batchAt_eq]
        by_cases hle : concurrency ≤ numRequests - i
        · have h1 : min concurrency (numRequests - i) = concurrency := by omega
          have h2 : numRequests - i = concurrency + (numRequests - (i + concurrency)) := by omega
          rw [h1]
          conv_rhs => rw [h2]
          rw [List.range'_append_1, Nat.add_comm]
        · have h1 : min concurrency (numRequests - i) = numRequests - i := by omega
          have h2 : numRequests - (i + concurrency) = 0 := by omega
          rw [h1, h2]
          simp
    · refine ⟨[], ?_, ?_⟩
      · simp [makeBatches, hi]
      · have : numRequests - i = 0 := by omega
        simp [this]

theorem foldl_batches (server : Nat → Nat) :
    ∀ (batches : List (List Nat)) (results : BurstResults),
      batches.foldl (fun results batch => batch.foldl (recordRequest server) results) results =
        batches.flatten.foldl (recordRequest server) results
  | [], _ => rfl
  | b :: rest, results => by
    simp only [List.foldl_cons, List.flatten_cons, List.foldl_append]
    exact foldl_batches server rest _

/-- The counters after the callbacks of the given requests: 200 counts as a
success, another 2xx status as rate limited, anything else as an error. -/
theorem foldl_recordRequest (server : Nat → Nat) :
    ∀ (indices : List Nat) (results : BurstResults),
      (indices.foldl (recordRequest server) results).success =
          results.success + indices.countP (fun i => server i = 200)
        ∧ (indices.foldl (recordRequest server) results).rateLimited =
          results.rateLimited + indices.countP (fun i =>
            200 < server i ∧ server i < 300)
        ∧ (indices.foldl (recordRequest server) results).errors =
          results.errors + indices.countP (fun i => ¬ (200 ≤ server i ∧ server i < 300))
        ∧ (indices.foldl (recordRequest server) results).requests =
          results.requests ++ indices.map (fun i => (i, server i)) := by
  intro indices
  induction indices with
  | nil => intro results; simp
  | cons i rest ih =>
    intro results
    obtain ⟨h1, h2, h3, h4⟩ := ih (recordRequest server results i)
    simp only [List.foldl_cons, h1, h2, h3, h4, List.countP_cons, List.map_cons]
    unfold recordRequest makeRequest
    by_cases ha : server i = 200
    · simp [ha]
      omega
    · by_cases hb : 200 ≤ server i ∧ server i < 300
      · have hc : 200 < server i ∧ server i < 300 := by omega
        simp [ha, hb, hc]
        omega
      · have hc : ¬ (200 < server i ∧ server i < 300) := by omega
        simp [ha, hb, hc]
        omega

/-- What `burst` returns for `concurrency >= 1`: it ends, with every request
recorded once; a response counts as a success when its status is 200, as rate
limited when it is another 2xx status, and as an error otherwise, a 429
included. -/
theorem burst_counts (server : Nat → Nat) (numRequests concurrency : Nat)
    (hc : 1 ≤ concurrency) :
    ∃ results, burst server numRequests concurrency = some results ∧
      results.success = (List.range numRequests).countP (fun i => server i = 200) ∧
      results.rateLimited =
        (List.range numRequests).countP (fun i => 200 < server i ∧ server i < 300) ∧
      results.errors =
        (List.range numRequests).countP (fun i => ¬ (200 ≤ server i ∧ server i < 300)) ∧
      results.requests = (List.range numRequests).map (fun i => (i, server i)) := by
  obtain ⟨batches, hb, hjoin⟩ := makeBatches_join numRequests concurrency hc numRequests 0
    (by omega)
  obtain ⟨h1, h2, h3, h4⟩ := foldl_recordRequest server (List.range numRequests)
    { success := 0, rateLimited := 0, errors := 0, requests := [] }
  refine ⟨_, by simp only [burst, hb, Option.map_some']; rfl, ?_⟩
  rw [foldl_batches, hjoin, Nat.sub_zero, ← List.range_eq_range']
  simp only [h1, h2, h3, h4, Nat.zero_add, List.nil_append, and_self]

/-! ## Expiries on a server in a time zone -/

theorem LocalTime_constant (c : Int) (t : Date) : LocalTime ⟨c, []⟩ t = t + c := rfl

theorem UTC_constant (c : Int) (t : Date) : UTC ⟨c, []⟩ t = t - c := rfl

/-- In a zone without transitions the window ids of an instant are those of
its local time value, the instant shifted by the offset. -/
theorem windowIdIn_constant (c : Int) (now : Date) :
    getMinuteWindowIdIn ⟨c, []⟩ now = getMinuteWindowId (now + c)
      ∧ getDayWindowIdIn ⟨c, []⟩ now = getDayWindowId (now + c) :=
  ⟨rfl, rfl⟩

/-- The minute expiry in any zone: read as a local time it is the local time
of `now` plus 60 seconds; as an instant it is `now` plus 60 seconds plus the
difference between the offset in force at `now` and the offset with which that
local time is read. -/
theorem minuteExpiryIn_eq (z : TimeZone) (now : Date) :
    minuteExpiryIn z now = now + 60000
      + (offsetAtUTC z.offset z.transitions now
          - offsetAtLocal z.offset z.transitions (LocalTime z now + 60000)) := by
  have h := minuteExpiry_eq (LocalTime z now)
  unfold minuteExpiry at h
  unfold minuteExpiryIn setMinutesIn getMinutesIn UTC
  rw [h]
  unfold LocalTime
  unfold Date at *
  omega

/-- The minute expiry is `now` plus 60 seconds whenever the local time one
minute after `now` is read with the offset in force at `now`. -/
theorem minuteExpiryIn_of_same_offset (z : TimeZone) (now : Date)
    (h : offsetAtLocal z.offset z.transitions (LocalTime z now + 60000)
      = offsetAtUTC z.offset z.transitions now) :
    minuteExpiryIn z now = now + 60000 := by
  rw [minuteExpiryIn_eq, h]
  unfold Date at *
  omega

theorem minuteExpiryIn_of_same_offset_witness :
    minuteExpiryIn newYork sampleNow = sampleNow + 60000 :=
  minuteExpiryIn_of_same_offset newYork sampleNow (by decide)

/-- In a zone without transitions the expiries are those computed on local
time values, shifted back by the offset: `now` plus 60 seconds, and the next
local midnight. -/
theorem expiryIn_constant (c : Int) (now : Date) :
    minuteExpiryIn ⟨c, []⟩ now = minuteExpiry (now + c) - c
      ∧ dayExpiryIn ⟨c, []⟩ now = dayExpiry (now + c) - c
      ∧ minuteExpiryIn ⟨c, []⟩ now = now + 60000
      ∧ dayExpiryIn ⟨c, []⟩ now = (Day (now + c) + 1) * msPerDay - c := by
  have h1 : minuteExpiryIn ⟨c, []⟩ now = minuteExpiry (now + c) - c := rfl
  have h2 : dayExpiryIn ⟨c, []⟩ now = dayExpiry (now + c) - c := by
    unfold dayExpiryIn setHoursIn setDateIn getDateIn dayExpiry
    simp only [LocalTime_constant, UTC_constant]
    unfold Date at *
    rw [Int.sub_add_cancel]
  refine ⟨h1, h2, ?_, ?_⟩
  · rw [h1, minuteExpiry_eq]
    unfold Date at *
    omega
  · rw [h2, dayExpiry_eq]

/-- On a server whose local time is UTC the middleware on instants is the
middleware on local time values. -/
theorem rateLimiterIn_utc (io : Bool) (env : Env) (req : Request) (w : World) :
    rateLimiterIn ⟨0, []⟩ io env req w = rateLimiter io env req w := by
  have h1 : ∀ t : Date, getMinuteWindowIdIn ⟨0, []⟩ t = getMinuteWindowId t := by
    intro t
    rw [(windowIdIn_constant 0 t).1, Int.add_zero]
  have h2 : ∀ t : Date, getDayWindowIdIn ⟨0, []⟩ t = getDayWindowId t := by
    intro t
    rw [(windowIdIn_constant 0 t).2, Int.add_zero]
  have h3 : ∀ t : Date, minuteExpiryIn ⟨0, []⟩ t = minuteExpiry t := by
    intro t
    rw [(expiryIn_constant 0 t).1, Int.add_zero, Int.sub_zero]
  have h4 : ∀ t : Date, dayExpiryIn ⟨0, []⟩ t = dayExpiry t := by
    intro t
    rw [(expiryIn_constant 0 t).2.1, Int.add_zero, Int.sub_zero]
  unfold rateLimiterIn rateLimiter
  simp only [h1, h2, h3, h4]

theorem findOneAndUpdate_shiftExpiry (c : Int) (key : String) (type : WindowType)
    (windowId : String) (expiry : Date) (coll : List UsageWindow) :
    findOneAndUpdate key type windowId (expiry + c) (coll.map (UsageWindow.shiftExpiry c)) =
      ((findOneAndUpdate key type windowId expiry coll).1.shiftExpiry c,
        (findOneAndUpdate key type windowId expiry coll).2.map (UsageWindow.shiftExpiry c)) := by
  induction coll with
  | nil => rfl
  | cons d rest ih =>
    have hm : matchesWindow key type windowId (d.shiftExpiry c)
        = matchesWindow key type windowId d := rfl
    simp only [List.map_cons, findOneAndUpdate, hm]
    by_cases h : matchesWindow key type windowId d = true
    · simp only [h, if_true, List.map_cons]
      rfl
    · simp only [h, if_false, ih, List.map_cons]
      rfl

theorem incrementAndGet_shiftExpiry (c : Int) (key : String) (type : WindowType)
    (windowId : String) (expiry : Date) (coll : List UsageWindow) :
    incrementAndGet key type windowId (expiry + c) (coll.map (UsageWindow.shiftExpiry c)) =
      ((incrementAndGet key type windowId expiry coll).1,
        (incrementAndGet key type windowId expiry coll).2.map (UsageWindow.shiftExpiry c)) := by
  unfold incrementAndGet
  rw [findOneAndUpdate_shiftExpiry]
  rfl

theorem checkRateLimits_toLocal (c : Int) (io : Bool) (now logTime : Date) (faults : Faults)
    (req : Request) (apiKey : String) (keyData : ApiKey) (minuteCount dayCount : Nat)
    (apiKeys : List ApiKey) (usageWindows : List UsageWindow) (accessLogs : List AccessLog)
    (emitted : List UsageUpdate) :
    checkRateLimits io ⟨now + c, logTime, faults⟩ req apiKey keyData minuteCount dayCount
        ⟨apiKeys, usageWindows.map (UsageWindow.shiftExpiry c), accessLogs, emitted⟩ =
      ((checkRateLimits io ⟨now, logTime, faults⟩ req apiKey keyData minuteCount dayCount
          ⟨apiKeys, usageWindows, accessLogs, emitted⟩).1,
        (checkRateLimits io ⟨now, logTime, faults⟩ req apiKey keyData minuteCount dayCount
          ⟨apiKeys, usageWindows, accessLogs, emitted⟩).2.toLocal c) := by
  unfold checkRateLimits
  cases io <;> split_ifs <;> rfl

/-- On a server in a zone without transitions, `c` milliseconds ahead of UTC,
the middleware on instants and the middleware on local time values agree: the
same outcome and the same world, once the clock reading and the stored
expiries are given as local time values. -/
theorem rateLimiterIn_constant (c : Int) (io : Bool) (env : Env) (req : Request) (w : World) :
    rateLimiter io { env with now := env.now + c } req (w.toLocal c) =
      ((rateLimiterIn ⟨c, []⟩ io env req w).1, (rateLimiterIn ⟨c, []⟩ io env req w).2.toLocal c) := by
  have h3 : ∀ t : Date, minuteExpiry (t + c) = minuteExpiryIn ⟨c, []⟩ t + c := by
    intro t
    rw [(expiryIn_constant c t).1]
    unfold Date at *
    omega
  have h4 : ∀ t : Date, dayExpiry (t + c) = dayExpiryIn ⟨c, []⟩ t + c := by
    intro t
    rw [(expiryIn_constant c t).2.1]
    unfold Date at *
    omega
  rcases env with ⟨now, logTime, ⟨f1, f2, f3, f4⟩⟩
  rcases w with ⟨apiKeys, usageWindows, accessLogs, emitted⟩
  have hw : (World.mk apiKeys usageWindows accessLogs emitted).toLocal c
      = ⟨apiKeys, usageWindows.map (UsageWindow.shiftExpiry c), accessLogs, emitted⟩ := rfl
  rw [hw]
  rcases req with ⟨_ | apiKey, path⟩
  · rfl
  · by_cases hne : apiKey = ""
    · simp [rateLimiter, rateLimiterIn, hne, World.toLocal]
    · cases hfind : findActiveKey apiKeys apiKey with
      | none => cases f1 <;> simp [rateLimiter, rateLimiterIn, World.toLocal, hne, hfind]
      | some kd =>
        cases f1
        · cases f2 <;> cases f3
          · simp [rateLimiter, rateLimiterIn, hne, hfind, h3, h4,
              (windowIdIn_constant c now).1, (windowIdIn_constant c now).2,
              incrementAndGet_shiftExpiry, checkRateLimits_toLocal]
          · simp [rateLimiter, rateLimiterIn, hne, hfind, h3, h4,
              (windowIdIn_constant c now).1, (windowIdIn_constant c now).2,
              incrementAndGet_shiftExpiry, World.toLocal, internalServerError]
          · simp [rateLimiter, rateLimiterIn, hne, hfind, h3, h4,
              (windowIdIn_constant c now).1, (windowIdIn_constant c now).2,
              incrementAndGet_shiftExpiry, World.toLocal, internalServerError]
          · simp [rateLimiter, rateLimiterIn, hne, hfind, h3, h4,
              (windowIdIn_constant c now).1, (windowIdIn_constant c now).2,
              incrementAndGet_shiftExpiry, World.toLocal, internalServerError]
        · simp [rateLimiter, rateLimiterIn, hne, hfind, World.toLocal]

/-- In any zone, an instant with the minute window id of `now`, in the same
occurrence of the local hour (same offset), is earlier than the minute expiry
computed from `now`, provided the local time one minute after `now` is read
with the offset in force at `now`. -/
theorem lt_minuteExpiryIn (z : TimeZone) (now t : Date)
    (hid : getMinuteWindowIdIn z t = getMinuteWindowIdIn z now)
    (hhour : offsetAtUTC z.offset z.transitions t = offsetAtUTC z.offset z.transitions now)
    (hread : offsetAtLocal z.offset z.transitions (LocalTime z now + 60000)
      = offsetAtUTC z.offset z.transitions now) :
    t < minuteExpiryIn z now := by
  rw [minuteExpiryIn_of_same_offset z now hread]
  unfold getMinuteWindowIdIn at hid
  rw [getMinuteWindowId_eq_iff_minute] at hid
  unfold LocalTime at hid
  rw [hhour] at hid
  unfold msPerMinute at hid
  unfold Date at *
  omega

theorem lt_minuteExpiryIn_witness :
    sampleNow + 29876 < minuteExpiryIn newYork sampleNow :=
  lt_minuteExpiryIn newYork sampleNow (sampleNow + 29876) (by decide) (by decide) (by decide)

/-- In New York, for every request in the second occurrence of the local hour
from 01:00 to 02:00 of 2024-11-03 except its last minute, the minute expiry
is 59 minutes before the request. -/
theorem minuteExpiryIn_newYork_repeated_hour (now : Date)
    (h1 : 20030 * 86400000 + 6 * 3600000 ≤ now)
    (h2 : now < 20030 * 86400000 + 7 * 3600000 - 60000) :
    minuteExpiryIn newYork now = now - 59 * msPerMinute := by
  rw [minuteExpiryIn_eq]
  simp only [LocalTime, newYork, offsetAtUTC, offsetAtLocal, msPerMinute]
  unfold Date at *
  split_ifs <;> omega

theorem minuteExpiryIn_newYork_repeated_hour_witness :
    minuteExpiryIn newYork repeatedHourNow = repeatedHourNow - 59 * msPerMinute :=
  minuteExpiryIn_newYork_repeated_hour repeatedHourNow (by decide) (by decide)

/-- C13, at the failing input: on a server in New York at
2024-11-03T06:30:15.250Z (local 01:30:15.250, in the hour that occurs twice)
the expiry the middleware passes for the minute window is not `now` plus 60
seconds but 59 minutes before `now`, and the minute window the request creates
is stored with it; at 05:59:30Z, half a minute before the clocks are set back,
the minute expiry is 61 minutes after `now`.  The day expiry is the next local
midnight, 2024-11-04T05:00:00Z. -/
theorem minute_expiry_in_repeated_hour :
    minuteExpiryIn newYork repeatedHourNow = repeatedHourNow - 59 * msPerMinute
      ∧ minuteExpiryIn newYork repeatedHourNow ≠ repeatedHourNow + 60 * msPerSecond
      ∧ (rateLimiterIn newYork true repeatedHourEnv sampleRequest sampleWorld).2.usageWindows =
          [{ key := "ak_limited", type := .minute, windowId := "20241103-0130", count := 1,
             expiresAt := repeatedHourNow - 59 * msPerMinute },
           { key := "ak_limited", type := .day, windowId := "20241103", count := 1,
             expiresAt := 20031 * msPerDay + 5 * msPerHour }]
      ∧ minuteExpiryIn newYork beforeFallBackNow = beforeFallBackNow + 61 * msPerMinute
      ∧ dayExpiryIn newYork repeatedHourNow = 20031 * msPerDay + 5 * msPerHour
      ∧ LocalTime newYork (dayExpiryIn newYork repeatedHourNow) = 20031 * msPerDay := by
  decide

/-- C24, at the failing input: on a server in New York the request at
2024-11-03T06:30:15.250Z is allowed and creates the minute window
`20241103-0130` with an `expiresAt` 59 minutes before the request.  The
instant of the request and the instant 20 seconds later have that window's id
in the same occurrence of the local hour, and neither is earlier than the
minute expiry computed from the request; both are earlier than the day
expiry. -/
theorem minute_window_born_expired :
    (rateLimiterIn newYork true repeatedHourEnv sampleRequest sampleWorld).1.allowed = true
      ∧ (findOneWindow "ak_limited" .minute (getMinuteWindowIdIn newYork repeatedHourNow)
          (rateLimiterIn newYork true repeatedHourEnv sampleRequest sampleWorld).2.usageWindows).map
            (·.expiresAt) = some (minuteExpiryIn newYork repeatedHourNow)
      ∧ minuteExpiryIn newYork repeatedHourNow < repeatedHourNow
      ∧ getMinuteWindowIdIn newYork (repeatedHourNow + 20000)
          = getMinuteWindowIdIn newYork repeatedHourNow
      ∧ getHours (LocalTime newYork (repeatedHourNow + 20000))
          = getHours (LocalTime newYork repeatedHourNow)
      ∧ offsetAtUTC newYork.offset newYork.transitions (repeatedHourNow + 20000)
          = offsetAtUTC newYork.offset newYork.transitions repeatedHourNow
      ∧ ¬ repeatedHourNow + 20000 < minuteExpiryIn newYork repeatedHourNow
      ∧ ¬ repeatedHourNow < minuteExpiryIn newYork repeatedHourNow
      ∧ getDayWindowIdIn newYork (repeatedHourNow + 20000)
          = getDayWindowIdIn newYork repeatedHourNow
      ∧ repeatedHourNow + 20000 < dayExpiryIn newYork repeatedHourNow := by
  decide

end RateLimiter
